import Mathlib

/-!
Verification of the subscription / credit-ledger engine of the bot backend.

The service code (src/services/subscriptionService.js and the user / usage
controllers) is shallowly embedded: the Prisma-backed relational state is a
record of lists, each service method is a pure function from a database state
(plus the wall clock, passed explicitly) to a new state together with an
`Except` result mirroring the thrown errors.  JavaScript `Date` values are
modelled by normalised calendar datetimes with the exact `setMonth` overflow
semantics; JavaScript IEEE-754 double arithmetic on money is modelled by exact
rationals together with an explicit binary64 rounding function `fl`.
-/

/- Batteries marks the `Rat` field operations irreducible, which blocks
evaluation of concrete rational arithmetic inside `decide`; restore the
default reducibility for this development. -/
attribute [local semireducible] Rat.mul Rat.add Rat.inv Rat.sub

namespace BotBackend

/-! ## Calendar datetimes (JavaScript `Date` model)

A normalised datetime: `month ∈ [0, 11]`, `day ∈ [1, daysInMonth]`, `timeMs`
the time within the day.  Chronological comparison of normalised datetimes is
lexicographic on (year, month, day, timeMs), which agrees with comparison of
epoch milliseconds. -/

structure JsDate where
  year : Int
  month : Int
  day : Int
  timeMs : Int
deriving DecidableEq, Repr

def isLeap (y : Int) : Bool :=
  (y % 4 == 0 && y % 100 != 0) || y % 400 == 0

/-- Days in month `m` (0-based, JavaScript convention) of year `y`. -/
def daysInMonth (y : Int) (m : Int) : Int :=
  if m == 1 then (if isLeap y then 29 else 28)
  else if m == 3 || m == 5 || m == 8 || m == 10 then 30
  else 31

/-- JavaScript `d.setMonth(d.getMonth() + k)`: shift the month index by `k`
(carrying into the year), then let an out-of-range day overflow into the next
month exactly as `Date` normalisation does.  For a normalised input
(`day ≤ 31`) at most one carry is needed since every month has ≥ 28 days. -/
def addMonths (d : JsDate) (k : Int) : JsDate :=
  let total := d.year * 12 + d.month + k
  let y := total.fdiv 12
  let m := total.fmod 12
  if d.day > daysInMonth y m then
    let d2 := d.day - daysInMonth y m
    if m == 11 then ⟨y + 1, 0, d2, d.timeMs⟩ else ⟨y, m + 1, d2, d.timeMs⟩
  else ⟨y, m, d.day, d.timeMs⟩

/-- `today.setHours(0,0,0,0)` -/
def startOfDay (d : JsDate) : JsDate :=
  { d with timeMs := 0 }

/-- Chronological `≤` on normalised datetimes (epoch-millisecond order). -/
def dateLe (a b : JsDate) : Bool :=
  a.year < b.year ||
  (a.year == b.year && (a.month < b.month ||
    (a.month == b.month && (a.day < b.day ||
      (a.day == b.day && a.timeMs ≤ b.timeMs)))))

def dateLt (a b : JsDate) : Bool :=
  !dateLe b a

/-! ## IEEE-754 binary64 rounding over exact rationals

JavaScript numbers are binary64 doubles.  Money values that flow through
arithmetic (`plan.price * 0.20`, `totalEarning + earning`) are rounded after
each operation.  `fl` maps an exact rational to the value of the nearest
double (round to nearest, ties to even), for the normal range used here. -/

/-- `2 ^ e` as a rational, for integer `e`. -/
def qpow2 (e : Int) : ℚ :=
  if 0 ≤ e then (2 : ℚ) ^ e.toNat else ((2 : ℚ) ^ (-e).toNat)⁻¹

/-- Fuel-based `⌊log₂ n⌋` for positive `n` (0 otherwise); structural in the
fuel so that it evaluates inside `decide`. -/
def log2fuel : Nat → Nat → Nat
  | 0, _ => 0
  | fuel + 1, n => if n ≤ 1 then 0 else 1 + log2fuel fuel (n / 2)

/-- `⌊log₂ q⌋` for a positive rational `q`. -/
def ratFloorLog2 (q : ℚ) : Int :=
  let c : Int := (log2fuel 4096 q.num.natAbs : Int) - (log2fuel 4096 q.den : Int)
  if qpow2 (c + 1) ≤ q then c + 1
  else if q < qpow2 c then c - 1
  else c

/-- Round a rational to the nearest integer, ties to even. -/
def roundNearestEven (x : ℚ) : Int :=
  let n := ⌊x⌋
  let f := x - (n : ℚ)
  if f < 1/2 then n
  else if (1 : ℚ)/2 < f then n + 1
  else if n % 2 == 0 then n else n + 1

/-- Binary64 value nearest to a positive rational in the normal range. -/
def flPos (q : ℚ) : ℚ :=
  let e := ratFloorLog2 q
  let s := 52 - e
  let n := roundNearestEven (q * qpow2 s)
  (n : ℚ) * qpow2 (-s)

/-- Binary64 rounding of an exact rational (normal range; 0 maps to 0). -/
def fl (q : ℚ) : ℚ :=
  if q = 0 then 0
  else if q < 0 then -(flPos (-q))
  else flPos q

/-- The double written `0.20` in the source. -/
def fl02 : ℚ := fl (1/5)

/-! ## Data model

The Prisma schema file is not part of the repository snapshot; each structure
below carries exactly the fields the embedded code reads or writes.  Row ids
are natural numbers; `next…Id` counters in the database state model the
store's id generation. -/

structure User where
  id : Nat
  clerkUserId : String
  email : String
  name : String
  referredById : Option Nat
deriving DecidableEq, Repr

structure Plan where
  id : String
  name : String
  priceMonthly : ℚ
  priceYearly : ℚ
  dailyCredits : Int
  monthlyCredits : Int
  isDaily : Bool
  planDescription : String
deriving DecidableEq, Repr

structure Subscription where
  id : Nat
  userId : Nat
  planId : String
  billingCycle : String
  status : String
  currentPeriodStart : JsDate
  currentPeriodEnd : JsDate
  cancelAtPeriodEnd : Bool
  canceledAt : Option JsDate
deriving DecidableEq, Repr

structure LedgerEntry where
  userId : Nat
  subscriptionId : Nat
  amount : Int
  entryType : String
  entryDescription : String
deriving DecidableEq, Repr

structure DailyUsageRow where
  userId : Nat
  subscriptionId : Nat
  date : JsDate
  usageCount : Int
deriving DecidableEq, Repr

structure BillingRecord where
  userId : Nat
  subscriptionId : Nat
  amount : ℚ
  currency : String
  status : String
  paymentDate : JsDate
  externalPaymentId : String
deriving DecidableEq, Repr

structure ReferralStatsRow where
  userId : Nat
  referenceId : String
  totalUsersSigned : Int
  totalPaidSubscribers : Int
  totalEarning : ℚ
deriving DecidableEq, Repr

structure DB where
  users : List User
  plans : List Plan
  subscriptions : List Subscription
  creditLedger : List LedgerEntry
  dailyUsage : List DailyUsageRow
  billingHistory : List BillingRecord
  referralStats : List ReferralStatsRow
  nextUserId : Nat
  nextSubId : Nat
  nextPlanId : Nat
deriving DecidableEq, Repr

/-! ## Query helpers (Prisma calls) -/

/-- `prisma.user.findUnique({ where: { clerkUserId } })` -/
def findUser (db : DB) (clerkId : String) : Option User :=
  db.users.find? (fun u => u.clerkUserId == clerkId)

/-- `prisma.plan.findFirst({ where: { OR: [{ id }, { name }] } })` -/
def findPlan (db : DB) (planCode : String) : Option Plan :=
  db.plans.find? (fun p => p.id == planCode || p.name == planCode)

def findPlanById (db : DB) (planId : String) : Option Plan :=
  db.plans.find? (fun p => p.id == planId)

/-- `prisma.subscription.findFirst({ where: { userId, status: 'active' } })` -/
def findActiveSub (db : DB) (uid : Nat) : Option Subscription :=
  db.subscriptions.find? (fun s => s.userId == uid && s.status == "active")

/-- `prisma.creditLedger.aggregate({ where: { userId }, _sum: { amount } })`
followed by `|| 0` (an empty sum is 0). -/
def balance (db : DB) (uid : Nat) : Int :=
  ((db.creditLedger.filter (fun e => e.userId == uid)).map (fun e => e.amount)).sum

/-- `prisma.dailyUsage.findFirst({ where: { userId, date: today } })` with the
`?.usageCount || 0` default. -/
def todayUsage (db : DB) (uid : Nat) (today : JsDate) : Int :=
  match db.dailyUsage.find? (fun d => d.userId == uid && d.date == today) with
  | some row => row.usageCount
  | none => 0

/-! ## Error model

The service throws `Error` objects with message strings; the error kinds and
the data interpolated into the messages are modelled as a datatype. -/

inductive SvcError where
  | userNotFound (userId : String)
  | planNotFound (planCode : String)
  | noActiveSubscription
  | dailyLimitExceeded (used limit : Int)
  | insufficientCredits (available required : Int)
  | invalidInput (msg : String)
  | txFailure (msg : String)
deriving DecidableEq, Repr

/-! ## Payment Confirmation Workflow

`SubscriptionService.confirmPayment(userId, planCode, paidAt,
externalPaymentId, { billingCycle, amount, currency })`.  The Prisma
`$transaction` is all-or-nothing: its only internal failure point in the
embedding is the referrer's `referralStats.update`, which throws when no row
matches; in that case the whole transaction rolls back and the original state
is returned. -/

structure ConfirmInfo where
  subscription : Subscription
  creditsGranted : Int
deriving DecidableEq, Repr

/-- The referral commission: `(billingCycle === 'yearly' ? plan.priceYearly :
plan.priceMonthly) * 0.20`, one double multiplication. -/
def referralEarning (plan : Plan) (billingCycle : String) : ℚ :=
  if billingCycle == "yearly" then fl (plan.priceYearly * fl02)
  else fl (plan.priceMonthly * fl02)

/-- `tx.referralStats.update({ where: { userId }, data: { increments } })`:
fails (returns `none`, aborting the transaction) when no row matches, as
Prisma's `update` does.  The earning increment is a double addition. -/
def creditReferrer (stats : List ReferralStatsRow) (ruid : Nat) (earning : ℚ) :
    Option (List ReferralStatsRow) :=
  if stats.any (fun r => r.userId == ruid) then
    some (stats.map (fun r =>
      if r.userId == ruid then
        { r with totalPaidSubscribers := r.totalPaidSubscribers + 1,
                 totalEarning := fl (r.totalEarning + earning) }
      else r))
  else none

/-- Tail of the confirmation transaction: `if (user.referredById && amount >
0)` run the referral commission update.  A failure there aborts the whole
transaction, so the pre-transaction state `origDb` is what persists. -/
def applyReferral (origDb committedDb : DB) (user : User) (amount : ℚ)
    (earning : ℚ) (info : ConfirmInfo) : DB × Except SvcError ConfirmInfo :=
  match user.referredById with
  | none => (committedDb, .ok info)
  | some ruid =>
    if 0 < amount then
      match creditReferrer committedDb.referralStats ruid earning with
      | some stats1 => ({ committedDb with referralStats := stats1 }, .ok info)
      | none => (origDb, .error (.txFailure "referral stats row not found"))
    else (committedDb, .ok info)

/-- Unconditional steps of the confirmation transaction: the subscription
upsert (update the found active subscription in place, else create a fresh
active one), the credit-ledger grant, and the billing record.  Returns the
committed state and the upserted subscription. -/
def confirmCommit (db : DB) (user : User) (plan : Plan) (billingCycle : String)
    (currentPeriodStart currentPeriodEnd : JsDate) (creditsToGrant : Int)
    (paidAt : JsDate) (amount : ℚ) (currency externalPaymentId : String) :
    DB × Subscription :=
  let (sub, subs1, nextId) : Subscription × List Subscription × Nat :=
    match findActiveSub db user.id with
    | some s =>
      ({ s with
          planId := plan.id
          billingCycle := billingCycle
          status := "active"
          currentPeriodStart := currentPeriodStart
          currentPeriodEnd := currentPeriodEnd
          cancelAtPeriodEnd := false
          canceledAt := none },
       db.subscriptions.map (fun t =>
         if t.id == s.id then
           { t with
              planId := plan.id
              billingCycle := billingCycle
              status := "active"
              currentPeriodStart := currentPeriodStart
              currentPeriodEnd := currentPeriodEnd
              cancelAtPeriodEnd := false
              canceledAt := none }
         else t),
       db.nextSubId)
    | none =>
      let s1 : Subscription := {
        id := db.nextSubId
        userId := user.id
        planId := plan.id
        billingCycle := billingCycle
        status := "active"
        currentPeriodStart := currentPeriodStart
        currentPeriodEnd := currentPeriodEnd
        cancelAtPeriodEnd := false
        canceledAt := none }
      (s1, db.subscriptions ++ [s1], db.nextSubId + 1)
  ({ db with
      subscriptions := subs1
      nextSubId := nextId
      creditLedger := db.creditLedger ++
        [⟨user.id, sub.id, creditsToGrant, "granted",
          "Credits granted for " ++ plan.name ++ " subscription"⟩]
      billingHistory := db.billingHistory ++
        [⟨user.id, sub.id, amount, currency, "completed", paidAt, externalPaymentId⟩] },
   sub)

def confirmPayment (db : DB) (userId planCode : String) (paidAt : JsDate)
    (externalPaymentId : String) (billingCycle : String) (amount : ℚ)
    (currency : String) : DB × Except SvcError ConfirmInfo :=
  match findUser db userId with
  | none => (db, .error (.userNotFound userId))
  | some user =>
    match findPlan db planCode with
    | none => (db, .error (.planNotFound planCode))
    | some plan =>
      let currentPeriodStart := paidAt
      let currentPeriodEnd := addMonths paidAt (if billingCycle == "yearly" then 12 else 1)
      let creditsToGrant := if plan.isDaily then plan.dailyCredits else plan.monthlyCredits
      let cs := confirmCommit db user plan billingCycle currentPeriodStart
        currentPeriodEnd creditsToGrant paidAt amount currency externalPaymentId
      applyReferral db cs.1 user amount (referralEarning plan billingCycle)
        ⟨cs.2, creditsToGrant⟩

/-! ## Cancellation -/

def cancelSubscription (db : DB) (userId : String) (now : JsDate) :
    DB × Except SvcError Subscription :=
  match findUser db userId with
  | none => (db, .error (.userNotFound userId))
  | some user =>
    match findActiveSub db user.id with
    | none => (db, .error .noActiveSubscription)
    | some s =>
      let s1 := { s with cancelAtPeriodEnd := true, canceledAt := some now }
      ({ db with subscriptions :=
          db.subscriptions.map (fun t =>
            if t.id == s.id then { t with cancelAtPeriodEnd := true, canceledAt := some now }
            else t) },
       .ok s1)

/-! ## Subscription Query -/

structure SubDetails where
  subscription : Option Subscription
  availableCredits : Int
  dailyUsageCount : Int
  dailyLimit : Option Int
deriving DecidableEq, Repr

/-- `SubscriptionService.getSubscriptionDetails`.  Read-only.  When the user
has no active subscription it returns a success result with a null
subscription and `availableCredits: 0`, without querying the ledger. -/
def getSubscriptionDetails (db : DB) (userId : String) (now : JsDate) :
    Except SvcError SubDetails :=
  match findUser db userId with
  | none => .error (.userNotFound userId)
  | some user =>
    match findActiveSub db user.id with
    | none => .ok ⟨none, 0, 0, none⟩
    | some s =>
      match findPlanById db s.planId with
      | none => .error (.txFailure "plan relation missing")
      | some plan =>
        .ok ⟨some s, balance db user.id, todayUsage db user.id (startOfDay now),
             if plan.isDaily then some plan.dailyCredits else none⟩

/-! ## Usage Consumption Workflow -/

structure ConsumeInfo where
  creditsConsumed : Int
  remainingCredits : Int
deriving DecidableEq, Repr

/-- `tx.dailyUsage.upsert` on the unique `(userId, date)` key: increment the
existing row's count or create it with the consumed amount. -/
def upsertDailyUsage (rows : List DailyUsageRow) (uid sid : Nat) (today : JsDate)
    (n : Int) : List DailyUsageRow :=
  if rows.any (fun r => r.userId == uid && r.date == today) then
    rows.map (fun r =>
      if r.userId == uid && r.date == today then { r with usageCount := r.usageCount + n }
      else r)
  else rows ++ [⟨uid, sid, today, n⟩]

/-- `SubscriptionService.consumeCredits(userId, creditsToConsume,
description)`, with the wall clock passed explicitly.  All checks precede the
mutating transaction; a failure leaves the state untouched. -/
def consumeCredits (db : DB) (userId : String) (creditsToConsume : Int)
    (consumeDescription : String) (now : JsDate) :
    DB × Except SvcError ConsumeInfo :=
  match findUser db userId with
  | none => (db, .error (.userNotFound userId))
  | some user =>
    match findActiveSub db user.id with
    | none => (db, .error .noActiveSubscription)
    | some sub =>
      match findPlanById db sub.planId with
      | none => (db, .error (.txFailure "plan relation missing"))
      | some plan =>
        let today := startOfDay now
        let currentUsage := todayUsage db user.id today
        if plan.isDaily ∧ plan.dailyCredits < currentUsage + creditsToConsume then
          (db, .error (.dailyLimitExceeded currentUsage plan.dailyCredits))
        else
          let availableCredits := balance db user.id
          if availableCredits < creditsToConsume then
            (db, .error (.insufficientCredits availableCredits creditsToConsume))
          else
            let ledger1 := db.creditLedger ++
              [⟨user.id, sub.id, -creditsToConsume, "consumed", consumeDescription⟩]
            let usage1 :=
              if plan.isDaily then
                upsertDailyUsage db.dailyUsage user.id sub.id today creditsToConsume
              else db.dailyUsage
            ({ db with creditLedger := ledger1, dailyUsage := usage1 },
             .ok ⟨creditsToConsume, availableCredits - creditsToConsume⟩)

/-- The `/api/usage/consume` controller: rejects a missing `userId` and a
non-positive credit amount before the service runs.  (The `typeof credits`
check is vacuous here since the embedding types `credits` as an integer.) -/
def consumeCreditsController (db : DB) (userId : Option String) (credits : Int)
    (consumeDescription : String) (now : JsDate) :
    DB × Except SvcError ConsumeInfo :=
  match userId with
  | none => (db, .error (.invalidInput "Missing required field: userId is required"))
  | some uid =>
    if credits ≤ 0 then
      (db, .error (.invalidInput "Credits must be a positive number"))
    else
      consumeCredits db uid credits consumeDescription now

/-! ## Renewal Batch Workflow

`SubscriptionService.renewDueSubscriptions()`.  Store failures are modelled by
oracles: `queryFail` makes the initial `findMany` throw (the only
workflow-fatal failure), `itemFail` makes the per-subscription `$transaction`
throw; a thrown item transaction is rolled back, caught, and recorded in the
per-item results. -/

def duePred (now : JsDate) (s : Subscription) : Bool :=
  s.status == "active" && !s.cancelAtPeriodEnd && dateLe s.currentPeriodEnd now

structure RenewalItem where
  subscriptionId : Nat
  success : Bool
  error : Option String
deriving DecidableEq, Repr

structure RenewSummary where
  renewed : Nat
  failed : Nat
  results : List RenewalItem
deriving DecidableEq, Repr

/-- The per-item subscription update: `currentPeriodStart := old end`,
`currentPeriodEnd := old end + 1 month` (12 for yearly), computed from the
due-query snapshot `s` and applied to the stored row `t` with that id. -/
def renewUpdate (s t : Subscription) : Subscription :=
  { t with
      currentPeriodStart := s.currentPeriodEnd
      currentPeriodEnd :=
        addMonths s.currentPeriodEnd (if s.billingCycle == "yearly" then 12 else 1) }

/-- The result row recorded for one due subscription (determined by the
failure oracle and the plan relation). -/
def itemResult (db : DB) (itemFail : Nat → Option String) (s : Subscription) :
    RenewalItem :=
  match itemFail s.id with
  | some e => ⟨s.id, false, some e⟩
  | none =>
    match findPlanById db s.planId with
    | none => ⟨s.id, false, some "plan relation missing"⟩
    | some _ => ⟨s.id, true, none⟩

/-- The ledger entries appended for one due subscription (empty when its
transaction fails). -/
def itemGrants (db : DB) (itemFail : Nat → Option String) (s : Subscription) :
    List LedgerEntry :=
  match itemFail s.id with
  | some _ => []
  | none =>
    match findPlanById db s.planId with
    | none => []
    | some p =>
      [⟨s.userId, s.id, if p.isDaily then p.dailyCredits else p.monthlyCredits,
        "granted", "Credits granted for " ++ s.billingCycle ++ " renewal"⟩]

/-- One iteration of the renewal loop, acting on the snapshot row `s` from the
due query: extend the period from `s.currentPeriodEnd`, then atomically update
the subscription and append the renewal grant.  A missing plan relation makes
the transaction throw (caught by the loop), as does the `itemFail` oracle. -/
def renewOne (itemFail : Nat → Option String) (db : DB) (s : Subscription) :
    DB × RenewalItem :=
  match itemFail s.id with
  | some e => (db, ⟨s.id, false, some e⟩)
  | none =>
    match findPlanById db s.planId with
    | none => (db, ⟨s.id, false, some "plan relation missing"⟩)
    | some plan =>
      let creditsToGrant := if plan.isDaily then plan.dailyCredits else plan.monthlyCredits
      let subs1 := db.subscriptions.map (fun t =>
        if t.id == s.id then renewUpdate s t else t)
      let ledger1 := db.creditLedger ++
        [⟨s.userId, s.id, creditsToGrant, "granted",
          "Credits granted for " ++ s.billingCycle ++ " renewal"⟩]
      ({ db with subscriptions := subs1, creditLedger := ledger1 }, ⟨s.id, true, none⟩)

def renewLoop (itemFail : Nat → Option String) (db : DB) :
    List Subscription → DB × List RenewalItem
  | [] => (db, [])
  | s :: rest =>
    let step := renewOne itemFail db s
    let tail := renewLoop itemFail step.1 rest
    (tail.1, step.2 :: tail.2)

def renewDueSubscriptions (db : DB) (now : JsDate)
    (queryFail : Option String) (itemFail : Nat → Option String) :
    DB × Except SvcError RenewSummary :=
  match queryFail with
  | some e => (db, .error (.txFailure e))
  | none =>
    let due := db.subscriptions.filter (duePred now)
    let run := renewLoop itemFail db due
    (run.1, .ok ⟨(run.2.filter (fun r => r.success)).length,
                 (run.2.filter (fun r => !r.success)).length,
                 run.2⟩)

/-! ## User Lifecycle (signup)

`setupNewUser` from the user controller.  The generated referral code and the
wall clock are explicit parameters.  The source's subscription row names its
period bounds `startDate`/`endDate` (and stores a `remainingCredits` field no
embedded code reads); they are mapped onto the period fields of the
subscription model. -/

inductive SetupOutcome where
  | created (u : User) (referenceId : String)
  | alreadyExists (u : User)
  | failed (e : SvcError)
deriving DecidableEq, Repr

def freePlanDefaults (id : String) : Plan :=
  { id := id
    name := "Free"
    priceMonthly := 0
    priceYearly := 0
    dailyCredits := 0
    monthlyCredits := 2
    isDaily := false
    planDescription := "1-month free trial with 2 credits" }

def setupNewUser (db : DB) (clerkUserId email : String) (name : Option String)
    (referredById : Option String) (now : JsDate) (newRefCode : String) :
    DB × SetupOutcome :=
  if clerkUserId == "" || email == "" then
    (db, .failed (.invalidInput "Missing required fields"))
  else
    match findUser db clerkUserId with
    | some existing => (db, .alreadyExists existing)
    | none =>
      let referrer? : Except SvcError (Option User) :=
        match referredById with
        | none => .ok none
        | some code =>
          match db.referralStats.find? (fun r => r.referenceId == code) with
          | none => .error (.invalidInput ("Invalid referredById: " ++ code))
          | some row =>
            match db.users.find? (fun u => u.id == row.userId) with
            | none => .error (.invalidInput ("Invalid referredById: " ++ code))
            | some u => .ok (some u)
      match referrer? with
      | .error e => (db, .failed e)
      | .ok referrer =>
        let (freePlan, plans1, nextPlan1) :=
          match db.plans.find? (fun p => p.name == "Free") with
          | some p => (p, db.plans, db.nextPlanId)
          | none =>
            let p := freePlanDefaults ("plan-" ++ toString db.nextPlanId)
            (p, db.plans ++ [p], db.nextPlanId + 1)
        let startDate := now
        let endDate := addMonths now 1
        let user : User := {
          id := db.nextUserId
          clerkUserId := clerkUserId
          email := email
          name := name.getD "Anonymous"
          referredById := referrer.map (fun r => r.id) }
        let stats : ReferralStatsRow := ⟨user.id, newRefCode, 0, 0, 0⟩
        let sub : Subscription := {
          id := db.nextSubId
          userId := user.id
          planId := freePlan.id
          billingCycle := "monthly"
          status := "active"
          currentPeriodStart := startDate
          currentPeriodEnd := endDate
          cancelAtPeriodEnd := false
          canceledAt := none }
        let stats1 := db.referralStats ++ [stats]
        match referrer with
        | some r =>
          if stats1.any (fun row => row.userId == r.id) then
            ({ db with
                users := db.users ++ [user]
                plans := plans1
                nextPlanId := nextPlan1
                referralStats := stats1.map (fun row =>
                  if row.userId == r.id then
                    { row with totalUsersSigned := row.totalUsersSigned + 1 }
                  else row)
                subscriptions := db.subscriptions ++ [sub]
                nextUserId := db.nextUserId + 1
                nextSubId := db.nextSubId + 1 },
             .created user newRefCode)
          else (db, .failed (.txFailure "referral stats row not found"))
        | none =>
          ({ db with
              users := db.users ++ [user]
              plans := plans1
              nextPlanId := nextPlan1
              referralStats := stats1
              subscriptions := db.subscriptions ++ [sub]
              nextUserId := db.nextUserId + 1
              nextSubId := db.nextSubId + 1 },
           .created user newRefCode)

/-! ## Observers and invariants -/

/-- The subscription row with a given id (ids are unique in the store). -/
def subById (db : DB) (i : Nat) : Option Subscription :=
  db.subscriptions.find? (fun s => s.id == i)

/-- The `ReferralStats` row of a given user. -/
def findStats (db : DB) (uid : Nat) : Option ReferralStatsRow :=
  db.referralStats.find? (fun r => r.userId == uid)

/-- Number of subscriptions of `uid` with status `active` in a row list. -/
def countActive (l : List Subscription) (uid : Nat) : Nat :=
  (l.filter (fun s => s.userId == uid && s.status == "active")).length

/-- Number of subscriptions of `uid` with status `active`. -/
def activeCount (db : DB) (uid : Nat) : Nat :=
  countActive db.subscriptions uid

/-- The invariant of §3: at most one active subscription per user. -/
def AtMostOneActive (db : DB) : Prop :=
  ∀ uid, activeCount db uid ≤ 1

/-- Store well-formedness: subscription primary keys are unique, and the id
generators are ahead of every existing row. -/
structure WF (db : DB) : Prop where
  idsNodup : (db.subscriptions.map (fun s => s.id)).Nodup
  idsLt : ∀ s ∈ db.subscriptions, s.id < db.nextSubId
  usersLt : ∀ u ∈ db.users, u.id < db.nextUserId
  subUsersLt : ∀ s ∈ db.subscriptions, s.userId < db.nextUserId

/-- Number of `granted` ledger entries for a given subscription. -/
def grantCount (db : DB) (sid : Nat) : Nat :=
  (db.creditLedger.filter (fun e => e.subscriptionId == sid && e.entryType == "granted")).length


/-! ## Concrete fixtures used by witnesses and counterexamples -/

def c5sub : Subscription :=
  ⟨1, 1, "m1", "monthly", "active", ⟨2025, 8, 1, 0⟩, ⟨2025, 9, 1, 0⟩, false, none⟩

def c5freshSub : Subscription :=
  ⟨1, 1, "m1", "monthly", "active", ⟨2025, 10, 20, 0⟩, ⟨2025, 11, 20, 0⟩, false, none⟩

def c5freshDb : DB :=
  ⟨[⟨1, "u1", "e", "n", none⟩],
   [⟨"m1", "Premium", 0, 0, 0, 10, false, ""⟩],
   [⟨1, 1, "m1", "monthly", "active", ⟨2025, 10, 20, 0⟩, ⟨2025, 11, 20, 0⟩, false, none⟩],
   [], [], [], [], 2, 2, 0⟩

def c5db : DB :=
  ⟨[⟨1, "u1", "e", "n", none⟩],
   [⟨"m1", "Premium", 0, 0, 0, 10, false, ""⟩],
   [⟨1, 1, "m1", "monthly", "active", ⟨2025, 8, 1, 0⟩, ⟨2025, 9, 1, 0⟩, false, none⟩],
   [], [], [], [], 2, 2, 0⟩

def c5now : JsDate := ⟨2026, 0, 1, 0⟩

def c5run1 : DB := (renewDueSubscriptions c5db c5now none (fun _ => none)).1

def c5run2 : DB := (renewDueSubscriptions c5run1 c5now none (fun _ => none)).1

def c2db : DB :=
  ⟨[⟨1, "u1", "a", "A", none⟩],
   [⟨"p1", "Pro", 0, 0, 25, 0, true, "d"⟩],
   [⟨1, 1, "p1", "monthly", "active", ⟨2026, 0, 1, 0⟩, ⟨2026, 1, 1, 0⟩, false, none⟩],
   [], [], [], [], 2, 2, 0⟩

def c9db : DB :=
  ⟨[⟨1, "u1", "a", "A", none⟩], [], [], [⟨1, 1, 5, "granted", "g"⟩], [], [], [], 2, 1, 0⟩


def c10db : DB :=
  ⟨[⟨1, "u1", "a", "A", none⟩], [],
   [⟨1, 1, "p1", "monthly", "expired", ⟨2025, 0, 1, 0⟩, ⟨2025, 1, 1, 0⟩, false, none⟩],
   [⟨1, 1, 40, "granted", "g"⟩, ⟨1, 1, -5, "consumed", "c"⟩],
   [], [], [], 2, 2, 0⟩


def c8db : DB :=
  ⟨[⟨1, "u1", "a", "A", none⟩],
   [⟨"p1", "Pro", 0, 0, 25, 0, true, "d"⟩],
   [⟨1, 1, "p1", "monthly", "active", ⟨2026, 0, 1, 0⟩, ⟨2026, 1, 1, 0⟩, false, none⟩],
   [], [], [], [], 2, 2, 0⟩


def c1db : DB :=
  ⟨[⟨1, "u1", "a", "A", none⟩],
   [⟨"p1", "Pro", fl (Rat.divInt 999 100), fl (Rat.divInt 9999 100), 25, 0, true, "d"⟩],
   [], [⟨1, 7, 2, "granted", "starter"⟩], [], [], [], 2, 1, 0⟩


def c1run : DB × Except SvcError ConfirmInfo :=
  confirmPayment c1db "u1" "Pro" ⟨2026, 0, 15, 0⟩ "pi_1" "monthly"
    (fl (Rat.divInt 999 100)) "usd"


def c7db : DB :=
  ⟨[⟨1, "u1", "a", "A", some 2⟩, ⟨2, "u2", "b", "B", none⟩],
   [⟨"p1", "Pro", fl (Rat.divInt 999 100), fl (Rat.divInt 9999 100), 25, 0, true, "d"⟩],
   [], [], [], [], [⟨2, "AURA-REF-x", 1, 0, 0⟩], 3, 1, 0⟩


def c7run : DB × Except SvcError ConfirmInfo :=
  confirmPayment c7db "u1" "Pro" ⟨2026, 0, 15, 0⟩ "pi_2" "monthly"
    (fl (Rat.divInt 999 100)) "usd"


def c7sub : Subscription :=
  ⟨1, 1, "p1", "monthly", "active", ⟨2026, 0, 15, 0⟩, ⟨2026, 1, 15, 0⟩, false, none⟩


def c3db : DB :=
  ⟨[⟨1, "u1", "a", "A", none⟩],
   [⟨"p1", "Pro", 0, 0, 25, 0, true, "d"⟩],
   [⟨1, 1, "p1", "monthly", "active", ⟨2026, 0, 1, 0⟩, ⟨2026, 1, 1, 0⟩, false, none⟩],
   [⟨1, 1, 25, "granted", "g"⟩],
   [⟨1, 1, ⟨2026, 0, 15, 0⟩, 20⟩],
   [], [], 2, 2, 0⟩


end BotBackend

namespace BotBackend

/-! # Claims -/

set_option maxRecDepth 40000

/-! ## C9: the consume controller rejects non-positive amounts -/

/-- **C9.** Every credit-consumption request with `creditsToConsume ≤ 0` fails
fast with `InvalidInput` before any mutation: the state is returned untouched,
so no ledger entry is appended and no daily-usage row is created or
incremented. -/
theorem consumeController_rejects_nonpositive (db : DB) (uid : String)
    (credits : Int) (d : String) (now : JsDate) (h : credits ≤ 0) :
    consumeCreditsController db (some uid) credits d now
      = (db, .error (.invalidInput "Credits must be a positive number")) ∧
    (consumeCreditsController db (some uid) credits d now).1.creditLedger
      = db.creditLedger ∧
    (consumeCreditsController db (some uid) credits d now).1.dailyUsage
      = db.dailyUsage := by
  have hc : (credits ≤ 0) = True := eq_true h
  refine ⟨?_, ?_, ?_⟩ <;> simp [consumeCreditsController, hc]

theorem consumeController_rejects_nonpositive_witness :
    consumeCreditsController c9db (some "u1") 0 "API usage" ⟨2026, 0, 1, 0⟩
      = (c9db, .error (.invalidInput "Credits must be a positive number")) :=
  (consumeController_rejects_nonpositive c9db "u1" 0 "API usage" ⟨2026, 0, 1, 0⟩
    (by decide)).1

/-! ## C10: details query with no active subscription -/

/-- **C10.** For every user that exists but has no active subscription,
`getSubscriptionDetails` returns a success result with a null subscription and
`availableCredits = 0`, regardless of the content of the credit ledger (the
ledger is not summed in this branch). -/
theorem getSubscriptionDetails_noActive (db : DB) (userId : String)
    (now : JsDate) (u : User) (hu : findUser db userId = some u)
    (hs : findActiveSub db u.id = none) :
    getSubscriptionDetails db userId now = .ok ⟨none, 0, 0, none⟩ := by
  simp [getSubscriptionDetails, hu, hs]

theorem getSubscriptionDetails_noActive_witness :
    0 < balance c10db 1 ∧
    getSubscriptionDetails c10db "u1" ⟨2026, 0, 1, 0⟩ = .ok ⟨none, 0, 0, none⟩ :=
  ⟨by decide,
   getSubscriptionDetails_noActive c10db "u1" ⟨2026, 0, 1, 0⟩ ⟨1, "u1", "a", "A", none⟩
     (by decide) (by decide)⟩

/-! ## Shared helper lemmas -/

lemma find?_map_invariant {α : Type} (l : List α) (f : α → α) (p : α → Bool)
    (hf : ∀ a, p (f a) = p a) : (l.map f).find? p = (l.find? p).map f := by
  have hp : (fun a => p (f a)) = p := funext hf
  rw [List.find?_map]
  show (l.find? fun a => p (f a)).map f = _
  rw [hp]

lemma findActiveSub_props {db : DB} {uid : Nat} {s : Subscription}
    (h : findActiveSub db uid = some s) :
    s ∈ db.subscriptions ∧ s.userId = uid ∧ s.status = "active" := by
  have hmem := List.mem_of_find?_eq_some h
  have hpred := List.find?_some h
  simp only [Bool.and_eq_true, beq_iff_eq] at hpred
  exact ⟨hmem, hpred.1, hpred.2⟩

lemma sum_amount_filter_append (l1 l2 : List LedgerEntry) (uid : Nat) :
    (((l1 ++ l2).filter (fun x => x.userId == uid)).map (fun x => x.amount)).sum
      = ((l1.filter (fun x => x.userId == uid)).map (fun x => x.amount)).sum
        + ((l2.filter (fun x => x.userId == uid)).map (fun x => x.amount)).sum := by
  simp [List.filter_append]

/-- On success, the referral step only touches the referral stats table. -/
lemma applyReferral_ok {o c : DB} {user : User} {amount earning : ℚ}
    {i : ConfirmInfo} {db1 : DB} {info : ConfirmInfo}
    (h : applyReferral o c user amount earning i = (db1, .ok info)) :
    info = i ∧ db1.users = c.users ∧ db1.plans = c.plans ∧
    db1.subscriptions = c.subscriptions ∧ db1.creditLedger = c.creditLedger ∧
    db1.dailyUsage = c.dailyUsage ∧ db1.billingHistory = c.billingHistory ∧
    db1.nextSubId = c.nextSubId ∧ db1.nextUserId = c.nextUserId := by
  rcases hr : user.referredById with _ | ruid <;>
    simp only [applyReferral, hr] at h
  · simp only [Prod.mk.injEq, Except.ok.injEq] at h
    obtain ⟨rfl, rfl⟩ := h
    simp
  · by_cases ha : 0 < amount
    · simp only [if_pos ha] at h
      rcases hcr : creditReferrer c.referralStats ruid earning with _ | stats1 <;>
        simp only [hcr] at h
      · simp at h
      · simp only [Prod.mk.injEq, Except.ok.injEq] at h
        obtain ⟨rfl, rfl⟩ := h
        simp
    · simp only [if_neg ha] at h
      simp only [Prod.mk.injEq, Except.ok.injEq] at h
      obtain ⟨rfl, rfl⟩ := h
      simp

/-- On failure, the referral step returns the pre-transaction state. -/
lemma applyReferral_error {o c : DB} {user : User} {amount earning : ℚ}
    {i : ConfirmInfo} {db1 : DB} {e : SvcError}
    (h : applyReferral o c user amount earning i = (db1, .error e)) : db1 = o := by
  rcases hr : user.referredById with _ | ruid <;>
    simp only [applyReferral, hr] at h
  · simp at h
  · by_cases ha : 0 < amount
    · simp only [if_pos ha] at h
      rcases hcr : creditReferrer c.referralStats ruid earning with _ | stats1 <;>
        simp only [hcr] at h
      · simp only [Prod.mk.injEq] at h
        exact h.1.symm
      · simp at h
    · simp only [if_neg ha] at h
      simp at h

/-! ## C8: cancellation is flag-only -/

/-- **C8.** `cancelSubscription` requires an active subscription (failing with
`NoActiveSubscription` otherwise, leaving the state untouched); on success it
only sets `cancelAtPeriodEnd := true` and `canceledAt := now` on the row with
the found subscription's id.  The returned subscription keeps its status
(still `active`), plan, billing cycle and period bounds, and it is still the
user's active subscription afterwards. -/
theorem cancelSubscription_spec (db : DB) (userId : String) (now : JsDate)
    (u : User) (hu : findUser db userId = some u) :
    (findActiveSub db u.id = none →
       cancelSubscription db userId now = (db, .error .noActiveSubscription)) ∧
    (∀ s, findActiveSub db u.id = some s →
       cancelSubscription db userId now =
         ({ db with subscriptions := db.subscriptions.map (fun t =>
              if t.id == s.id then
                { t with cancelAtPeriodEnd := true, canceledAt := some now }
              else t) },
          .ok { s with cancelAtPeriodEnd := true, canceledAt := some now }) ∧
       ({ s with cancelAtPeriodEnd := true, canceledAt := some now } : Subscription).status
           = "active" ∧
       findActiveSub (cancelSubscription db userId now).1 u.id
           = some { s with cancelAtPeriodEnd := true, canceledAt := some now } ∧
       (cancelSubscription db userId now).1.creditLedger = db.creditLedger ∧
       (cancelSubscription db userId now).1.billingHistory = db.billingHistory) := by
  constructor
  · intro hs
    simp [cancelSubscription, hu, hs]
  · intro s hs
    obtain ⟨hmem, huid, hstat⟩ := findActiveSub_props hs
    have hmain : cancelSubscription db userId now =
        ({ db with subscriptions := db.subscriptions.map (fun t =>
             if t.id == s.id then
               { t with cancelAtPeriodEnd := true, canceledAt := some now }
             else t) },
         .ok { s with cancelAtPeriodEnd := true, canceledAt := some now }) := by
      simp [cancelSubscription, hu, hs]
    refine ⟨hmain, hstat, ?_, by rw [hmain], by rw [hmain]⟩
    rw [hmain]
    show findActiveSub { db with subscriptions := _ } u.id = _
    unfold findActiveSub
    rw [show ({ db with subscriptions := db.subscriptions.map (fun t =>
          if t.id == s.id then { t with cancelAtPeriodEnd := true, canceledAt := some now }
          else t) } : DB).subscriptions = db.subscriptions.map (fun t =>
          if t.id == s.id then { t with cancelAtPeriodEnd := true, canceledAt := some now }
          else t) from rfl]
    rw [find?_map_invariant _ _ _ (fun t => by by_cases h : (t.id == s.id) = true <;> simp [h])]
    rw [show db.subscriptions.find? (fun t => t.userId == u.id && t.status == "active")
          = findActiveSub db u.id from rfl, hs]
    simp

theorem cancelSubscription_spec_witness :
    cancelSubscription c8db "u1" ⟨2026, 0, 15, 0⟩ =
      ({ c8db with subscriptions :=
          [⟨1, 1, "p1", "monthly", "active", ⟨2026, 0, 1, 0⟩, ⟨2026, 1, 1, 0⟩, true,
            some ⟨2026, 0, 15, 0⟩⟩] },
       .ok ⟨1, 1, "p1", "monthly", "active", ⟨2026, 0, 1, 0⟩, ⟨2026, 1, 1, 0⟩, true,
            some ⟨2026, 0, 15, 0⟩⟩) := by
  have h := ((cancelSubscription_spec c8db "u1" ⟨2026, 0, 15, 0⟩ ⟨1, "u1", "a", "A", none⟩
    (by decide)).2
    ⟨1, 1, "p1", "monthly", "active", ⟨2026, 0, 1, 0⟩, ⟨2026, 1, 1, 0⟩, false, none⟩
    (by decide)).1
  rw [h]
  rfl

/-! ## C3: consumeCredits case analysis -/

/-- **C3.** `consumeCredits(user, n)` fails with `NotFound` when the user does
not exist, with `NoActiveSubscription` when there is no active subscription,
with `DailyLimitExceeded` when the active plan is daily and today's usage plus
`n` exceeds the daily quota, and — that check passing — with
`InsufficientCredits` whenever `n` exceeds the ledger-sum balance (the checks
run in this order, so a request that violates both limits reports the daily
one).  Otherwise it succeeds, appending exactly one ledger entry of `-n` and
returning `remainingCredits = balance - n` (upserting today's usage row for a
daily plan).  Every failing case returns the state unchanged, so ledger and
daily usage are untouched. -/
theorem consumeCredits_spec (db : DB) (userId : String) (n : Int) (d : String)
    (now : JsDate) :
    (findUser db userId = none →
      consumeCredits db userId n d now = (db, .error (.userNotFound userId))) ∧
    (∀ u, findUser db userId = some u → findActiveSub db u.id = none →
      consumeCredits db userId n d now = (db, .error .noActiveSubscription)) ∧
    (∀ u s p, findUser db userId = some u → findActiveSub db u.id = some s →
      findPlanById db s.planId = some p →
      ((p.isDaily = true ∧ p.dailyCredits < todayUsage db u.id (startOfDay now) + n) →
        consumeCredits db userId n d now =
          (db, .error (.dailyLimitExceeded (todayUsage db u.id (startOfDay now))
                        p.dailyCredits))) ∧
      (¬(p.isDaily = true ∧ p.dailyCredits < todayUsage db u.id (startOfDay now) + n) →
        balance db u.id < n →
        consumeCredits db userId n d now =
          (db, .error (.insufficientCredits (balance db u.id) n))) ∧
      (¬(p.isDaily = true ∧ p.dailyCredits < todayUsage db u.id (startOfDay now) + n) →
        n ≤ balance db u.id →
        consumeCredits db userId n d now =
          ({ db with
              creditLedger := db.creditLedger ++ [⟨u.id, s.id, -n, "consumed", d⟩],
              dailyUsage :=
                if p.isDaily then
                  upsertDailyUsage db.dailyUsage u.id s.id (startOfDay now) n
                else db.dailyUsage },
           .ok ⟨n, balance db u.id - n⟩))) := by
  refine ⟨fun hu => by simp [consumeCredits, hu], fun u hu hs => by simp [consumeCredits, hu, hs],
          fun u s p hu hs hp => ⟨?_, ?_, ?_⟩⟩
  · intro hc
    simp [consumeCredits, hu, hs, hp, hc]
  · intro hc hb
    rw [consumeCredits]
    simp only [hu, hs, hp]
    rw [if_neg hc, if_pos hb]
  · intro hc hb
    rw [consumeCredits]
    simp only [hu, hs, hp]
    rw [if_neg hc, if_neg (not_lt.mpr hb)]

/-! ## C1: confirmPayment grants, bills and is atomic -/

lemma balance_eq_of_ledger_eq {a b : DB} (h : a.creditLedger = b.creditLedger)
    (uid : Nat) : balance a uid = balance b uid := by
  unfold balance
  rw [h]

lemma confirmCommit_ledger (db : DB) (user : User) (plan : Plan) (cycle : String)
    (ps pe : JsDate) (cg : Int) (paidAt : JsDate) (amount : ℚ) (curr ext : String) :
    (confirmCommit db user plan cycle ps pe cg paidAt amount curr ext).1.creditLedger
      = db.creditLedger ++
        [⟨user.id, (confirmCommit db user plan cycle ps pe cg paidAt amount curr ext).2.id,
          cg, "granted", "Credits granted for " ++ plan.name ++ " subscription"⟩] := by
  rcases hs : findActiveSub db user.id with _ | s <;> simp only [confirmCommit, hs]

lemma confirmCommit_billing (db : DB) (user : User) (plan : Plan) (cycle : String)
    (ps pe : JsDate) (cg : Int) (paidAt : JsDate) (amount : ℚ) (curr ext : String) :
    (confirmCommit db user plan cycle ps pe cg paidAt amount curr ext).1.billingHistory
      = db.billingHistory ++
        [⟨user.id, (confirmCommit db user plan cycle ps pe cg paidAt amount curr ext).2.id,
          amount, curr, "completed", paidAt, ext⟩] := by
  rcases hs : findActiveSub db user.id with _ | s <;> simp only [confirmCommit, hs]

lemma confirmCommit_stats (db : DB) (user : User) (plan : Plan) (cycle : String)
    (ps pe : JsDate) (cg : Int) (paidAt : JsDate) (amount : ℚ) (curr ext : String) :
    (confirmCommit db user plan cycle ps pe cg paidAt amount curr ext).1.referralStats
      = db.referralStats := by
  rcases hs : findActiveSub db user.id with _ | s <;> simp only [confirmCommit, hs]

/-- **C1.** Every successful `confirmPayment` raises the user's ledger-sum
balance by exactly `creditsGranted`, where `creditsGranted` is the plan's
daily quota for a daily plan and its monthly quota otherwise, and appends
exactly one `completed` billing row for the payment; when any step fails the
returned state is the input state, so none of the transaction's mutations
persists. -/
theorem confirmPayment_spec (db : DB) (userId planCode : String) (paidAt : JsDate)
    (ext cycle : String) (amount : ℚ) (curr : String) :
    (∀ db1 info, confirmPayment db userId planCode paidAt ext cycle amount curr
        = (db1, .ok info) →
      ∃ u plan, findUser db userId = some u ∧ findPlan db planCode = some plan ∧
        info.creditsGranted
          = (if plan.isDaily then plan.dailyCredits else plan.monthlyCredits) ∧
        balance db1 u.id = balance db u.id + info.creditsGranted ∧
        db1.billingHistory = db.billingHistory ++
          [⟨u.id, info.subscription.id, amount, curr, "completed", paidAt, ext⟩]) ∧
    (∀ db1 e, confirmPayment db userId planCode paidAt ext cycle amount curr
        = (db1, .error e) → db1 = db) := by
  constructor
  · intro db1 info h
    rcases hu : findUser db userId with _ | u
    · simp only [confirmPayment, hu] at h
      simp at h
    rcases hp : findPlan db planCode with _ | plan
    · simp only [confirmPayment, hu, hp] at h
      simp at h
    refine ⟨u, plan, rfl, rfl, ?_⟩
    simp only [confirmPayment, hu, hp] at h
    obtain ⟨hinfo, -, -, -, hledger, -, hbill, -, -⟩ := applyReferral_ok h
    subst hinfo
    refine ⟨rfl, ?_, by rw [hbill, confirmCommit_billing]⟩
    rw [balance_eq_of_ledger_eq hledger]
    unfold balance
    rw [confirmCommit_ledger, sum_amount_filter_append]
    simp
  · intro db1 e h
    rcases hu : findUser db userId with _ | u
    · simp only [confirmPayment, hu] at h
      simp only [Prod.mk.injEq] at h
      exact h.1.symm
    rcases hp : findPlan db planCode with _ | plan
    · simp only [confirmPayment, hu, hp] at h
      simp only [Prod.mk.injEq] at h
      exact h.1.symm
    rcases hs : findActiveSub db u.id with _ | s <;>
      simp only [confirmPayment, hu, hp, hs] at h <;>
      exact applyReferral_error h

theorem confirmPayment_spec_witness :
    ∃ u plan, findUser c1db "u1" = some u ∧ findPlan c1db "Pro" = some plan ∧
      (ConfirmInfo.creditsGranted
          ⟨⟨1, 1, "p1", "monthly", "active", ⟨2026, 0, 15, 0⟩, ⟨2026, 1, 15, 0⟩,
            false, none⟩, 25⟩)
        = (if plan.isDaily then plan.dailyCredits else plan.monthlyCredits) ∧
      balance c1run.1 u.id = balance c1db u.id + 25 ∧
      c1run.1.billingHistory = c1db.billingHistory ++
        [⟨u.id, 1, fl (Rat.divInt 999 100), "usd", "completed", ⟨2026, 0, 15, 0⟩, "pi_1"⟩] :=
  (confirmPayment_spec c1db "u1" "Pro" ⟨2026, 0, 15, 0⟩ "pi_1" "monthly"
      (fl (Rat.divInt 999 100)) "usd").1 c1run.1
    ⟨⟨1, 1, "p1", "monthly", "active", ⟨2026, 0, 15, 0⟩, ⟨2026, 1, 15, 0⟩, false, none⟩, 25⟩
    rfl

/-! ## C7: referral commission -/

lemma creditReferrer_of_found {stats : List ReferralStatsRow} {ruid : Nat}
    {r : ReferralStatsRow} (hr : stats.find? (fun x => x.userId == ruid) = some r)
    (earning : ℚ) :
    creditReferrer stats ruid earning
      = some (stats.map (fun x =>
          if x.userId == ruid then
            { x with totalPaidSubscribers := x.totalPaidSubscribers + 1,
                     totalEarning := fl (x.totalEarning + earning) }
          else x)) ∧
    (stats.map (fun x =>
        if x.userId == ruid then
          { x with totalPaidSubscribers := x.totalPaidSubscribers + 1,
                   totalEarning := fl (x.totalEarning + earning) }
        else x)).find? (fun x => x.userId == ruid)
      = some { r with totalPaidSubscribers := r.totalPaidSubscribers + 1,
                      totalEarning := fl (r.totalEarning + earning) } := by
  have hmem := List.mem_of_find?_eq_some hr
  have hpred := List.find?_some hr
  have hany : stats.any (fun x => x.userId == ruid) = true :=
    List.any_eq_true.mpr ⟨r, hmem, hpred⟩
  refine ⟨by unfold creditReferrer; rw [if_pos hany], ?_⟩
  rw [find?_map_invariant _ _ _ (fun a => by by_cases h : (a.userId == ruid) = true <;> simp [h]),
      hr]
  show some (if r.userId == ruid then
      { r with totalPaidSubscribers := r.totalPaidSubscribers + 1,
               totalEarning := fl (r.totalEarning + earning) }
    else r) = _
  rw [if_pos hpred]

lemma applyReferral_stats_unchanged {o c : DB} {user : User}
    {amount earning : ℚ} {i : ConfirmInfo} {db1 : DB} {info : ConfirmInfo}
    (h : applyReferral o c user amount earning i = (db1, .ok info))
    (hcase : user.referredById = none ∨ amount ≤ 0) :
    db1.referralStats = c.referralStats := by
  rcases hcase with hnone | hle
  · simp only [applyReferral, hnone] at h
    simp only [Prod.mk.injEq] at h
    rw [← h.1]
  · rcases hr : user.referredById with _ | ruid <;>
      simp only [applyReferral, hr] at h
    · simp only [Prod.mk.injEq] at h
      rw [← h.1]
    · rw [if_neg (not_lt.mpr hle)] at h
      simp only [Prod.mk.injEq] at h
      rw [← h.1]

/-- **C7 (amended).** When `confirmPayment` succeeds for a user with a
referrer and `amount > 0`, the referrer's stats row gains exactly one paid
subscriber and its `totalEarning` is increased by the binary64 product of the
chosen cycle's plan price and the double `0.20` (the addition itself rounded
to binary64) — for a $9.99 monthly plan that increment is
`2249548013871563 / 2^51 ≈ 1.9980000000000002`, not exactly `1.998`.  This
applies to every such confirmed payment, not only the first.  When the user
has no referrer or `amount ≤ 0`, the referral stats table is unchanged. -/
theorem confirmPayment_referral (db : DB) (userId planCode : String)
    (paidAt : JsDate) (ext cycle : String) (amount : ℚ) (curr : String) :
    (∀ db1 info u ruid plan r,
      confirmPayment db userId planCode paidAt ext cycle amount curr = (db1, .ok info) →
      findUser db userId = some u → u.referredById = some ruid → 0 < amount →
      findPlan db planCode = some plan → findStats db ruid = some r →
      findStats db1 ruid = some { r with
        totalPaidSubscribers := r.totalPaidSubscribers + 1,
        totalEarning := fl (r.totalEarning + referralEarning plan cycle) }) ∧
    (∀ db1 info u,
      confirmPayment db userId planCode paidAt ext cycle amount curr = (db1, .ok info) →
      findUser db userId = some u → (u.referredById = none ∨ amount ≤ 0) →
      db1.referralStats = db.referralStats) := by
  constructor
  · intro db1 info u ruid plan r h hu hr ha hp hst
    have hcr := creditReferrer_of_found hst (referralEarning plan cycle)
    simp only [confirmPayment, hu, hp, applyReferral, hr, if_pos ha,
      confirmCommit_stats, hcr.1] at h
    simp only [Prod.mk.injEq] at h
    obtain ⟨hdb1, -⟩ := h
    rw [← hdb1]
    exact hcr.2
  · intro db1 info u h hu hcase
    rcases hp : findPlan db planCode with _ | plan
    · simp only [confirmPayment, hu, hp] at h
      simp at h
    rcases hs : findActiveSub db u.id with _ | s <;>
      simp only [confirmPayment, hu, hp, hs] at h <;>
      · have hx := applyReferral_stats_unchanged h hcase
        exact hx

/-- Counterexample to C7 as stated: confirming a $9.99 monthly payment for a
referred user increments the referrer's `totalEarning` (from 0) by the
binary64 value `2249548013871563 / 2^51 = 1.9980000000000002…`, which is not
exactly `1.998`: JavaScript's `9.99 * 0.20` does not round to `1.998`. -/
theorem confirmPayment_referral_counterexample :
    c7run.2.toOption = some ⟨c7sub, 25⟩ ∧
    (findStats c7db 2).map (fun r => r.totalEarning) = some 0 ∧
    (findStats c7run.1 2).map (fun r => r.totalEarning)
      = some (Rat.divInt 2249548013871563 1125899906842624) ∧
    (findStats c7run.1 2).map (fun r => r.totalEarning) ≠ some (Rat.divInt 999 500) ∧
    (findStats c7run.1 2).map (fun r => r.totalPaidSubscribers) = some 1 := by
  refine ⟨by decide, by decide, by decide, by decide, by decide⟩

theorem confirmPayment_referral_witness :
    findStats c7run.1 2 = some
      { userId := 2, referenceId := "AURA-REF-x", totalUsersSigned := 1,
        totalPaidSubscribers := 1,
        totalEarning := fl (0 + referralEarning
          ⟨"p1", "Pro", fl (Rat.divInt 999 100), fl (Rat.divInt 9999 100), 25, 0,
           true, "d"⟩ "monthly") } :=
  (confirmPayment_referral c7db "u1" "Pro" ⟨2026, 0, 15, 0⟩ "pi_2" "monthly"
      (fl (Rat.divInt 999 100)) "usd").1 c7run.1 ⟨c7sub, 25⟩
    ⟨1, "u1", "a", "A", some 2⟩ 2
    ⟨"p1", "Pro", fl (Rat.divInt 999 100), fl (Rat.divInt 9999 100), 25, 0, true, "d"⟩
    ⟨2, "AURA-REF-x", 1, 0, 0⟩
    rfl (by decide) (by decide) (by decide) (by decide) (by decide)

theorem consumeCredits_spec_witness :
    consumeCredits c3db "u1" 10 "API usage" ⟨2026, 0, 15, 43200000⟩ =
      (c3db, .error (.dailyLimitExceeded 20 25)) :=
  ((consumeCredits_spec c3db "u1" 10 "API usage" ⟨2026, 0, 15, 43200000⟩).2.2
    ⟨1, "u1", "a", "A", none⟩
    ⟨1, 1, "p1", "monthly", "active", ⟨2026, 0, 1, 0⟩, ⟨2026, 1, 1, 0⟩, false, none⟩
    ⟨"p1", "Pro", 0, 0, 25, 0, true, "d"⟩
    (by decide) (by decide) (by decide)).1 (by decide)

/-! ## C2: at most one active subscription per user -/

lemma length_filter_map {α : Type} (l : List α) (f : α → α) (p : α → Bool)
    (hf : ∀ a ∈ l, p (f a) = p a) :
    ((l.map f).filter p).length = (l.filter p).length := by
  induction l with
  | nil => rfl
  | cons a t ih =>
    have iht := ih (fun b hb => hf b (List.mem_cons_of_mem a hb))
    have ha := hf a (List.mem_cons_self a t)
    simp only [List.map_cons, List.filter_cons, ha]
    by_cases hpa : p a = true <;> simp [hpa, iht]

lemma countActive_map (l : List Subscription) (f : Subscription → Subscription)
    (uid : Nat)
    (hf : ∀ s ∈ l, ((f s).userId == uid && (f s).status == "active")
                 = (s.userId == uid && s.status == "active")) :
    countActive (l.map f) uid = countActive l uid :=
  length_filter_map l f _ hf

lemma countActive_append (l1 l2 : List Subscription) (uid : Nat) :
    countActive (l1 ++ l2) uid = countActive l1 uid + countActive l2 uid := by
  unfold countActive
  simp [List.filter_append]

lemma countActive_zero_of_find?_none {l : List Subscription} {uid : Nat}
    (h : l.find? (fun s => s.userId == uid && s.status == "active") = none) :
    countActive l uid = 0 := by
  unfold countActive
  rw [List.length_eq_zero, List.filter_eq_nil_iff]
  rw [List.find?_eq_none] at h
  exact h

lemma countActive_zero_of_userId_lt {l : List Subscription} {n : Nat}
    (h : ∀ s ∈ l, s.userId < n) : countActive l n = 0 := by
  unfold countActive
  rw [List.length_eq_zero, List.filter_eq_nil_iff]
  intro s hs
  simp only [Bool.and_eq_true, beq_iff_eq, not_and]
  intro he
  exact absurd he (Nat.ne_of_lt (h s hs))

lemma countActive_singleton (s : Subscription) (uid : Nat) :
    countActive [s] uid
      = if s.userId == uid && s.status == "active" then 1 else 0 := by
  unfold countActive
  by_cases hp : (s.userId == uid && s.status == "active") = true <;>
    simp [List.filter_cons, hp]

lemma WF_of_fields_eq {a b : DB} (hs : a.subscriptions = b.subscriptions)
    (hn : a.nextSubId = b.nextSubId) (hu : a.users = b.users)
    (hm : a.nextUserId = b.nextUserId) (h : WF b) : WF a := by
  refine ⟨?_, ?_, ?_, ?_⟩
  · rw [hs]; exact h.idsNodup
  · rw [hs, hn]; exact h.idsLt
  · rw [hu, hm]; exact h.usersLt
  · rw [hs, hm]; exact h.subUsersLt

lemma AMOA_of_subs_eq {a b : DB} (hs : a.subscriptions = b.subscriptions)
    (h : AtMostOneActive b) : AtMostOneActive a := by
  intro uid
  show countActive a.subscriptions uid ≤ 1
  rw [hs]
  exact h uid

lemma applyReferral_fst_cases (o c : DB) (user : User) (amount earning : ℚ)
    (i : ConfirmInfo) :
    (applyReferral o c user amount earning i).1 = o ∨
    ((applyReferral o c user amount earning i).1.subscriptions = c.subscriptions ∧
     (applyReferral o c user amount earning i).1.nextSubId = c.nextSubId ∧
     (applyReferral o c user amount earning i).1.users = c.users ∧
     (applyReferral o c user amount earning i).1.nextUserId = c.nextUserId) := by
  rcases hr : user.referredById with _ | ruid <;>
    simp only [applyReferral, hr]
  · exact Or.inr ⟨by simp, by simp, by simp, by simp⟩
  · by_cases ha : 0 < amount
    · simp only [if_pos ha]
      rcases creditReferrer c.referralStats ruid earning with _ | st
      · exact Or.inl rfl
      · exact Or.inr ⟨by simp, by simp, by simp, by simp⟩
    · simp only [if_neg ha]
      exact Or.inr ⟨by simp, by simp, by simp, by simp⟩

/-- Well-formedness survives an id- and owner-preserving rewrite of the
subscription table (with arbitrary changes to the other tables). -/
lemma WF_of_subs_map {a b : DB} (g : Subscription → Subscription)
    (hs : a.subscriptions = b.subscriptions.map g)
    (hn : a.nextSubId = b.nextSubId) (hu : a.users = b.users)
    (hm : a.nextUserId = b.nextUserId)
    (hgid : ∀ t ∈ b.subscriptions, (g t).id = t.id)
    (hguid : ∀ t ∈ b.subscriptions, (g t).userId = t.userId)
    (h : WF b) : WF a := by
  refine ⟨?_, ?_, ?_, ?_⟩
  · rw [hs, List.map_map]
    rw [List.map_congr_left (l := b.subscriptions)
      (f := (fun s => s.id) ∘ g) (g := fun s => s.id)
      (fun t ht => by simpa using hgid t ht)]
    exact h.idsNodup
  · intro t ht
    rw [hs] at ht
    obtain ⟨t0, ht0, rfl⟩ := List.mem_map.mp ht
    rw [hn, hgid t0 ht0]
    exact h.idsLt t0 ht0
  · rw [hu, hm]
    exact h.usersLt
  · intro t ht
    rw [hs] at ht
    obtain ⟨t0, ht0, rfl⟩ := List.mem_map.mp ht
    rw [hm, hguid t0 ht0]
    exact h.subUsersLt t0 ht0

/-- The active-per-user bound survives a status- and owner-preserving rewrite
of the subscription table. -/
lemma AMOA_of_subs_map {a b : DB} (g : Subscription → Subscription)
    (hs : a.subscriptions = b.subscriptions.map g)
    (hg : ∀ uid, ∀ t ∈ b.subscriptions,
      ((g t).userId == uid && (g t).status == "active")
        = (t.userId == uid && t.status == "active"))
    (hA : AtMostOneActive b) : AtMostOneActive a := by
  intro uid
  show countActive a.subscriptions uid ≤ 1
  rw [hs, countActive_map _ _ uid (hg uid)]
  exact hA uid

/-- Well-formedness survives appending one subscription row with a fresh id
(row counters may advance). -/
lemma WF_of_subs_append {a b : DB} (s1 : Subscription)
    (hs : a.subscriptions = b.subscriptions ++ [s1])
    (hn : a.nextSubId = b.nextSubId + 1) (hid : s1.id = b.nextSubId)
    (husers : ∀ v ∈ a.users, v.id < a.nextUserId)
    (hm : b.nextUserId ≤ a.nextUserId)
    (huid : s1.userId < a.nextUserId)
    (h : WF b) : WF a := by
  refine ⟨?_, ?_, husers, ?_⟩
  · rw [hs, List.map_append, List.nodup_append]
    refine ⟨h.idsNodup, List.nodup_singleton _, ?_⟩
    intro x hx hx2
    simp only [List.map_cons, List.map_nil, List.mem_singleton] at hx2
    subst hx2
    obtain ⟨t, ht, hidt⟩ := List.mem_map.mp hx
    rw [hid] at hidt
    exact absurd hidt (Nat.ne_of_lt (h.idsLt t ht))
  · intro t ht
    rw [hs] at ht
    rw [hn]
    rcases List.mem_append.mp ht with h1 | h1
    · exact Nat.lt_succ_of_lt (h.idsLt t h1)
    · rw [List.mem_singleton] at h1
      subst h1
      rw [hid]
      exact Nat.lt_succ_self _
  · intro t ht
    rw [hs] at ht
    rcases List.mem_append.mp ht with h1 | h1
    · exact lt_of_lt_of_le (h.subUsersLt t h1) hm
    · rw [List.mem_singleton] at h1
      subst h1
      exact huid

/-- The active-per-user bound survives appending one subscription row for a
user with no active subscription. -/
lemma AMOA_of_subs_append {a b : DB} (s1 : Subscription)
    (hs : a.subscriptions = b.subscriptions ++ [s1])
    (hzero : countActive b.subscriptions s1.userId = 0)
    (hA : AtMostOneActive b) : AtMostOneActive a := by
  intro uid
  show countActive a.subscriptions uid ≤ 1
  rw [hs, countActive_append, countActive_singleton]
  by_cases he : uid = s1.userId
  · subst he
    rw [hzero]
    split <;> simp
  · rw [if_neg ?_]
    · simpa using hA uid
    · simp only [Bool.and_eq_true, beq_iff_eq, not_and]
      intro hb
      exact absurd hb.symm he

lemma confirmCommit_WF (db : DB) (h : WF db) (hA : AtMostOneActive db)
    {u : User} (humem : u ∈ db.users) (plan : Plan) (cycle : String)
    (ps pe : JsDate) (cg : Int) (paidAt : JsDate) (amount : ℚ) (curr ext : String) :
    WF (confirmCommit db u plan cycle ps pe cg paidAt amount curr ext).1 ∧
    AtMostOneActive (confirmCommit db u plan cycle ps pe cg paidAt amount curr ext).1 := by
  rcases hs : findActiveSub db u.id with _ | s <;> simp only [confirmCommit, hs]
  · -- create a fresh active subscription
    constructor
    · exact WF_of_subs_append (b := db) _ rfl rfl rfl h.usersLt (le_refl _)
        (h.usersLt u humem) h
    · exact AMOA_of_subs_append (b := db) _ rfl
        (countActive_zero_of_find?_none hs) hA
  · -- update the found active subscription in place
    obtain ⟨hmem, huid, hstat⟩ := findActiveSub_props hs
    constructor
    · refine WF_of_subs_map (b := db) _ rfl rfl rfl rfl ?_ ?_ h
      · intro t ht
        by_cases hc : (t.id == s.id) = true <;> simp [hc]
      · intro t ht
        by_cases hc : (t.id == s.id) = true <;> simp [hc]
    · refine AMOA_of_subs_map (b := db) _ rfl ?_ hA
      intro uid t ht
      by_cases hc : (t.id == s.id) = true
      · have ht_eq : t = s :=
          List.inj_on_of_nodup_map h.idsNodup ht hmem (beq_iff_eq.mp hc)
        subst ht_eq
        simp [hc, hstat]
      · simp [hc]

lemma confirmPayment_preserves (db : DB) (h : WF db) (hA : AtMostOneActive db)
    (userId planCode : String) (paidAt : JsDate) (ext cycle : String)
    (amount : ℚ) (curr : String) :
    WF (confirmPayment db userId planCode paidAt ext cycle amount curr).1 ∧
    AtMostOneActive (confirmPayment db userId planCode paidAt ext cycle amount curr).1 := by
  rcases hu : findUser db userId with _ | u
  · simp only [confirmPayment, hu]
    exact ⟨h, hA⟩
  rcases hp : findPlan db planCode with _ | plan
  · simp only [confirmPayment, hu, hp]
    exact ⟨h, hA⟩
  simp only [confirmPayment, hu, hp]
  have humem := List.mem_of_find?_eq_some hu
  have hcw := confirmCommit_WF db h hA humem plan cycle paidAt
    (addMonths paidAt (if cycle == "yearly" then 12 else 1))
    (if plan.isDaily then plan.dailyCredits else plan.monthlyCredits)
    paidAt amount curr ext
  rcases applyReferral_fst_cases db
      (confirmCommit db u plan cycle paidAt
        (addMonths paidAt (if cycle == "yearly" then 12 else 1))
        (if plan.isDaily then plan.dailyCredits else plan.monthlyCredits)
        paidAt amount curr ext).1 u amount (referralEarning plan cycle)
      ⟨(confirmCommit db u plan cycle paidAt
        (addMonths paidAt (if cycle == "yearly" then 12 else 1))
        (if plan.isDaily then plan.dailyCredits else plan.monthlyCredits)
        paidAt amount curr ext).2,
       if plan.isDaily then plan.dailyCredits else plan.monthlyCredits⟩
    with hf | ⟨h1, h2, h3, h4⟩
  · rw [hf]
    exact ⟨h, hA⟩
  · exact ⟨WF_of_fields_eq h1 h2 h3 h4 hcw.1, AMOA_of_subs_eq h1 hcw.2⟩

lemma setup_created_preserves (db : DB) (h : WF db) (hA : AtMostOneActive db)
    (user : User) (huid : user.id = db.nextUserId) (sub : Subscription)
    (hsid : sub.id = db.nextSubId) (hsuid : sub.userId = db.nextUserId)
    (plans1 : List Plan) (np : Nat) (stats1 : List ReferralStatsRow) :
    WF { db with
          users := db.users ++ [user]
          plans := plans1
          nextPlanId := np
          referralStats := stats1
          subscriptions := db.subscriptions ++ [sub]
          nextUserId := db.nextUserId + 1
          nextSubId := db.nextSubId + 1 } ∧
    AtMostOneActive { db with
          users := db.users ++ [user]
          plans := plans1
          nextPlanId := np
          referralStats := stats1
          subscriptions := db.subscriptions ++ [sub]
          nextUserId := db.nextUserId + 1
          nextSubId := db.nextSubId + 1 } := by
  constructor
  · refine WF_of_subs_append (b := db) sub rfl rfl hsid ?_ (Nat.le_succ _) ?_ h
    · intro v hv
      rcases List.mem_append.mp hv with h1 | h1
      · exact Nat.lt_succ_of_lt (h.usersLt v h1)
      · rw [List.mem_singleton] at h1
        subst h1
        rw [huid]
        exact Nat.lt_succ_self _
    · rw [hsuid]
      exact Nat.lt_succ_self _
  · refine AMOA_of_subs_append (b := db) sub rfl ?_ hA
    rw [hsuid]
    exact countActive_zero_of_userId_lt h.subUsersLt

lemma setupNewUser_preserves (db : DB) (h : WF db) (hA : AtMostOneActive db)
    (cid email : String) (nm : Option String) (ref : Option String)
    (now : JsDate) (code : String) :
    WF (setupNewUser db cid email nm ref now code).1 ∧
    AtMostOneActive (setupNewUser db cid email nm ref now code).1 := by
  rcases hr : setupNewUser db cid email nm ref now code with ⟨db1, out⟩
  unfold setupNewUser at hr
  by_cases h0 : (cid == "" || email == "") = true
  · rw [if_pos h0] at hr
    injection hr with h1 h2
    subst h1
    exact ⟨h, hA⟩
  rw [if_neg h0] at hr
  rcases hu : findUser db cid with _ | ex
  swap
  · simp only [hu] at hr
    injection hr with h1 h2
    subst h1
    exact ⟨h, hA⟩
  simp only [hu] at hr
  rcases ref with _ | code2
  · -- no referrer supplied
    rcases hpl : db.plans.find? (fun p => p.name == "Free") with _ | p <;>
      simp only [hpl] at hr <;>
      injection hr with h1 h2 <;>
      subst h1 <;>
      exact setup_created_preserves db h hA _ rfl _ rfl rfl _ _ _
  · -- referral code supplied
    rcases hfs : db.referralStats.find? (fun r => r.referenceId == code2)
        with _ | row
    · simp only [hfs] at hr
      injection hr with h1 h2
      subst h1
      exact ⟨h, hA⟩
    simp only [hfs] at hr
    rcases hfu : db.users.find? (fun v => v.id == row.userId) with _ | uref
    · simp only [hfu] at hr
      injection hr with h1 h2
      subst h1
      exact ⟨h, hA⟩
    simp only [hfu] at hr
    rcases hpl : db.plans.find? (fun p => p.name == "Free") with _ | p <;>
      simp only [hpl] at hr <;>
      split at hr <;>
      injection hr with h1 h2 <;>
      subst h1
    · exact setup_created_preserves db h hA _ rfl _ rfl rfl _ _ _
    · exact ⟨h, hA⟩
    · exact setup_created_preserves db h hA _ rfl _ rfl rfl _ _ _
    · exact ⟨h, hA⟩

lemma cancelSubscription_preserves (db : DB) (hA : AtMostOneActive db)
    (userId : String) (now : JsDate) :
    AtMostOneActive (cancelSubscription db userId now).1 := by
  rcases hu : findUser db userId with _ | u <;> simp only [cancelSubscription, hu]
  · exact hA
  rcases hs : findActiveSub db u.id with _ | s <;> simp only [hs]
  · exact hA
  refine AMOA_of_subs_map (b := db) _ rfl ?_ hA
  intro uid t ht
  by_cases hc : (t.id == s.id) = true <;> simp [hc]

lemma consumeCredits_preserves (db : DB) (hA : AtMostOneActive db)
    (userId : String) (n : Int) (d : String) (now : JsDate) :
    AtMostOneActive (consumeCredits db userId n d now).1 := by
  have hsubs : (consumeCredits db userId n d now).1.subscriptions
      = db.subscriptions := by
    rcases hu : findUser db userId with _ | u <;>
      simp only [consumeCredits, hu] <;> try rfl
    rcases hs : findActiveSub db u.id with _ | s <;>
      simp only [hs] <;> try rfl
    rcases hp : findPlanById db s.planId with _ | p <;>
      simp only [hp] <;> try rfl
    split
    · rfl
    split <;> rfl
  exact AMOA_of_subs_eq hsubs hA

lemma renewOne_countActive (f : Nat → Option String) (db : DB)
    (s : Subscription) (uid : Nat) :
    countActive (renewOne f db s).1.subscriptions uid
      = countActive db.subscriptions uid := by
  rcases hf : f s.id with _ | e <;>
    simp only [renewOne, hf] <;> try rfl
  rcases hp : findPlanById db s.planId with _ | p <;>
    simp only [hp] <;> try rfl
  rw [countActive_map _ _ uid (fun t ht => by
    by_cases hc : (t.id == s.id) = true <;> simp [hc, renewUpdate])]

lemma renewLoop_countActive (f : Nat → Option String) (L : List Subscription) :
    ∀ (db : DB) (uid : Nat),
      countActive (renewLoop f db L).1.subscriptions uid
        = countActive db.subscriptions uid := by
  induction L with
  | nil => intro db uid; rfl
  | cons s rest ih =>
    intro db uid
    show countActive (renewLoop f (renewOne f db s).1 rest).1.subscriptions uid = _
    rw [ih, renewOne_countActive]

lemma renewDue_preserves (db : DB) (hA : AtMostOneActive db) (now : JsDate)
    (qf : Option String) (itf : Nat → Option String) :
    AtMostOneActive (renewDueSubscriptions db now qf itf).1 := by
  rcases qf with _ | e
  · intro uid
    show countActive
        (renewLoop itf db (db.subscriptions.filter (duePred now))).1.subscriptions uid ≤ 1
    rw [renewLoop_countActive]
    exact hA uid
  · exact hA

/-- **C2.** In a well-formed store satisfying the at-most-one-active-per-user
invariant, every operation preserves it: payment confirmation (which updates
the existing active subscription in place and creates one only when none
exists), signup (which creates the single initial active subscription),
cancellation, credit consumption and batch renewal; in particular two
confirmations in immediate succession never yield two simultaneously-active
subscriptions for the same user. -/
theorem activeSubscription_unique (db : DB) (h : WF db) (hA : AtMostOneActive db) :
    (∀ userId planCode paidAt ext cycle amount curr,
      WF (confirmPayment db userId planCode paidAt ext cycle amount curr).1 ∧
      AtMostOneActive (confirmPayment db userId planCode paidAt ext cycle amount curr).1) ∧
    (∀ cid email nm ref now code,
      WF (setupNewUser db cid email nm ref now code).1 ∧
      AtMostOneActive (setupNewUser db cid email nm ref now code).1) ∧
    (∀ userId now, AtMostOneActive (cancelSubscription db userId now).1) ∧
    (∀ userId n d now, AtMostOneActive (consumeCredits db userId n d now).1) ∧
    (∀ now qf itf, AtMostOneActive (renewDueSubscriptions db now qf itf).1) ∧
    (∀ uid1 pc1 pa1 e1 cy1 am1 cu1 uid2 pc2 pa2 e2 cy2 am2 cu2,
      AtMostOneActive (confirmPayment
        (confirmPayment db uid1 pc1 pa1 e1 cy1 am1 cu1).1
        uid2 pc2 pa2 e2 cy2 am2 cu2).1) := by
  refine ⟨fun userId planCode paidAt ext cycle amount curr =>
            confirmPayment_preserves db h hA userId planCode paidAt ext cycle amount curr,
          fun cid email nm ref now code =>
            setupNewUser_preserves db h hA cid email nm ref now code,
          fun userId now => cancelSubscription_preserves db hA userId now,
          fun userId n d now => consumeCredits_preserves db hA userId n d now,
          fun now qf itf => renewDue_preserves db hA now qf itf,
          ?_⟩
  intro uid1 pc1 pa1 e1 cy1 am1 cu1 uid2 pc2 pa2 e2 cy2 am2 cu2
  obtain ⟨h1, hA1⟩ := confirmPayment_preserves db h hA uid1 pc1 pa1 e1 cy1 am1 cu1
  exact (confirmPayment_preserves _ h1 hA1 uid2 pc2 pa2 e2 cy2 am2 cu2).2

theorem activeSubscription_unique_witness :
    AtMostOneActive (confirmPayment
      (confirmPayment c2db "u1" "Pro" ⟨2026, 0, 15, 0⟩ "e1" "monthly" 0 "usd").1
      "u1" "Pro" ⟨2026, 0, 20, 0⟩ "e2" "monthly" 0 "usd").1 :=
  (activeSubscription_unique c2db
      ⟨by decide, by decide, by decide, by decide⟩
      (fun uid => le_trans (List.length_filter_le _ _) (by decide))).2.2.2.2.2
    "u1" "Pro" ⟨2026, 0, 15, 0⟩ "e1" "monthly" 0 "usd"
    "u1" "Pro" ⟨2026, 0, 20, 0⟩ "e2" "monthly" 0 "usd"

/-! ## C4, C5, C6: the renewal batch workflow

The lemmas characterise one pass of the loop: each due row is processed once,
the plan catalogue is never written, the results list and the appended ledger
grants are determined by the starting state, and an id absent from the due
set is untouched. -/

lemma find?_id_map_other {l : List Subscription} {j i : Nat} (hne : j ≠ i)
    (u : Subscription → Subscription) (hu : ∀ t, (u t).id = t.id) :
    (l.map (fun t => if t.id == j then u t else t)).find? (fun t => t.id == i)
      = l.find? (fun t => t.id == i) := by
  induction l with
  | nil => rfl
  | cons a rest ih =>
    simp only [List.map_cons]
    by_cases hc : (a.id == j) = true
    · have haj : a.id = j := beq_iff_eq.mp hc
      rw [if_pos hc]
      rw [List.find?_cons_of_neg (p := fun t : Subscription => t.id == i) _
            (by show ¬((u a).id == i) = true; simp [hu a, haj]; exact hne),
          List.find?_cons_of_neg (p := fun t : Subscription => t.id == i) _
            (by show ¬(a.id == i) = true; simp [haj]; exact hne), ih]
    · rw [if_neg hc]
      by_cases hi : (a.id == i) = true
      · rw [List.find?_cons_of_pos (p := fun t : Subscription => t.id == i) _ hi,
            List.find?_cons_of_pos (p := fun t : Subscription => t.id == i) _ hi]
      · rw [List.find?_cons_of_neg (p := fun t : Subscription => t.id == i) _ hi,
            List.find?_cons_of_neg (p := fun t : Subscription => t.id == i) _ hi, ih]

lemma find?_id_map_self {l : List Subscription} {j : Nat}
    (u : Subscription → Subscription) (hu : ∀ t, (u t).id = t.id) :
    (l.map (fun t => if t.id == j then u t else t)).find? (fun t => t.id == j)
      = (l.find? (fun t => t.id == j)).map u := by
  induction l with
  | nil => rfl
  | cons a rest ih =>
    simp only [List.map_cons]
    by_cases hc : (a.id == j) = true
    · rw [if_pos hc]
      rw [List.find?_cons_of_pos (p := fun t : Subscription => t.id == j) _
            (by show ((u a).id == j) = true; rw [hu a]; exact hc),
          List.find?_cons_of_pos (p := fun t : Subscription => t.id == j) _ hc]
      rfl
    · rw [if_neg hc]
      rw [List.find?_cons_of_neg (p := fun t : Subscription => t.id == j) _ hc,
          List.find?_cons_of_neg (p := fun t : Subscription => t.id == j) _ hc, ih]

lemma subById_of_mem {db : DB}
    (hnd : (db.subscriptions.map (fun t => t.id)).Nodup)
    {s : Subscription} (hs : s ∈ db.subscriptions) : subById db s.id = some s := by
  unfold subById
  rcases hfind : db.subscriptions.find? (fun t => t.id == s.id) with _ | t
  · rw [List.find?_eq_none] at hfind
    exact absurd (by simp) (hfind s hs)
  · have hpred := List.find?_some hfind
    have hmem := List.mem_of_find?_eq_some hfind
    have : t = s := List.inj_on_of_nodup_map hnd hmem hs (beq_iff_eq.mp hpred)
    rw [hfind, this]

lemma renewOne_frame (f : Nat → Option String) (db : DB) (s : Subscription) :
    (renewOne f db s).1.plans = db.plans ∧
    (renewOne f db s).1.users = db.users ∧
    (renewOne f db s).1.dailyUsage = db.dailyUsage ∧
    (renewOne f db s).1.billingHistory = db.billingHistory ∧
    (renewOne f db s).1.referralStats = db.referralStats ∧
    (renewOne f db s).1.subscriptions.map (fun t => t.id)
      = db.subscriptions.map (fun t => t.id) := by
  rcases hf : f s.id with _ | e
  swap
  · simp [renewOne, hf]
  rcases hp : findPlanById db s.planId with _ | p
  · simp [renewOne, hf, hp]
  refine ⟨by simp [renewOne, hf, hp], by simp [renewOne, hf, hp],
          by simp [renewOne, hf, hp], by simp [renewOne, hf, hp],
          by simp [renewOne, hf, hp], ?_⟩
  simp only [renewOne, hf, hp]
  rw [List.map_map]
  exact List.map_congr_left (fun t ht => by
    by_cases hc : (t.id == s.id) = true <;> simp [Function.comp, hc, renewUpdate])

lemma renewOne_item (f : Nat → Option String) (db : DB) (s : Subscription) :
    (renewOne f db s).2 = itemResult db f s := by
  rcases hf : f s.id with _ | e <;> simp only [renewOne, itemResult, hf] <;> try rfl
  rcases hp : findPlanById db s.planId with _ | p <;> simp only [hp]

lemma renewOne_ledger (f : Nat → Option String) (db : DB) (s : Subscription) :
    (renewOne f db s).1.creditLedger = db.creditLedger ++ itemGrants db f s := by
  rcases hf : f s.id with _ | e <;> simp only [renewOne, itemGrants, hf] <;> try simp
  rcases hp : findPlanById db s.planId with _ | p <;> simp only [hp] <;> simp

lemma renewOne_subById_other (f : Nat → Option String) (db : DB)
    (s : Subscription) {i : Nat} (hne : s.id ≠ i) :
    subById (renewOne f db s).1 i = subById db i := by
  rcases hf : f s.id with _ | e <;> simp only [renewOne, hf] <;> try rfl
  rcases hp : findPlanById db s.planId with _ | p <;> simp only [hp] <;> try rfl
  exact find?_id_map_other hne (renewUpdate s) (fun t => rfl)

lemma renewOne_subById_self (f : Nat → Option String) (db : DB)
    (s : Subscription) (hf : f s.id = none) {p : Plan}
    (hp : findPlanById db s.planId = some p) :
    subById (renewOne f db s).1 s.id = (subById db s.id).map (renewUpdate s) := by
  simp only [renewOne, hf, hp]
  exact find?_id_map_self (renewUpdate s) (fun t => rfl)

lemma renewOne_fst_fail (f : Nat → Option String) (db : DB) (s : Subscription)
    (e : String) (hf : f s.id = some e) : (renewOne f db s).1 = db := by
  simp only [renewOne, hf]

lemma findPlanById_congr {a b : DB} (h : a.plans = b.plans) (pid : String) :
    findPlanById a pid = findPlanById b pid := by
  unfold findPlanById
  rw [h]

lemma itemResult_congr {a b : DB} (h : a.plans = b.plans)
    (f : Nat → Option String) (s : Subscription) :
    itemResult a f s = itemResult b f s := by
  unfold itemResult
  rw [findPlanById_congr h]

lemma itemGrants_congr {a b : DB} (h : a.plans = b.plans)
    (f : Nat → Option String) (s : Subscription) :
    itemGrants a f s = itemGrants b f s := by
  unfold itemGrants
  rw [findPlanById_congr h]

lemma renewLoop_plans (f : Nat → Option String) (L : List Subscription) :
    ∀ db : DB, (renewLoop f db L).1.plans = db.plans := by
  induction L with
  | nil => intro db; rfl
  | cons s rest ih =>
    intro db
    show (renewLoop f (renewOne f db s).1 rest).1.plans = _
    rw [ih, (renewOne_frame f db s).1]

lemma renewLoop_ids (f : Nat → Option String) (L : List Subscription) :
    ∀ db : DB, (renewLoop f db L).1.subscriptions.map (fun t => t.id)
      = db.subscriptions.map (fun t => t.id) := by
  induction L with
  | nil => intro db; rfl
  | cons s rest ih =>
    intro db
    show (renewLoop f (renewOne f db s).1 rest).1.subscriptions.map _ = _
    rw [ih, (renewOne_frame f db s).2.2.2.2.2]

lemma renewLoop_results (f : Nat → Option String) (L : List Subscription) :
    ∀ db : DB, (renewLoop f db L).2 = L.map (fun s => itemResult db f s) := by
  induction L with
  | nil => intro db; rfl
  | cons s rest ih =>
    intro db
    show (renewOne f db s).2 :: (renewLoop f (renewOne f db s).1 rest).2 = _
    rw [ih, renewOne_item, List.map_cons]
    have hfun : (fun t => itemResult (renewOne f db s).1 f t)
        = (fun t => itemResult db f t) :=
      funext (fun t => itemResult_congr (renewOne_frame f db s).1 f t)
    rw [hfun]

lemma renewLoop_ledger (f : Nat → Option String) (L : List Subscription) :
    ∀ db : DB, (renewLoop f db L).1.creditLedger
      = db.creditLedger ++ L.flatMap (fun s => itemGrants db f s) := by
  induction L with
  | nil => intro db; simp [renewLoop]
  | cons s rest ih =>
    intro db
    show (renewLoop f (renewOne f db s).1 rest).1.creditLedger = _
    rw [ih, renewOne_ledger, List.flatMap_cons, List.append_assoc]
    have hfun : (fun t => itemGrants (renewOne f db s).1 f t)
        = (fun t => itemGrants db f t) :=
      funext (fun t => itemGrants_congr (renewOne_frame f db s).1 f t)
    rw [hfun]

lemma renewLoop_subById_other (f : Nat → Option String) (L : List Subscription) :
    ∀ (db : DB) (i : Nat), (∀ t ∈ L, t.id ≠ i) →
      subById (renewLoop f db L).1 i = subById db i := by
  induction L with
  | nil => intro db i _; rfl
  | cons s rest ih =>
    intro db i h
    show subById (renewLoop f (renewOne f db s).1 rest).1 i = _
    rw [ih _ _ (fun t ht => h t (List.mem_cons_of_mem s ht)),
        renewOne_subById_other f db s (h s (List.mem_cons_self s rest))]

lemma renewLoop_subById_success (f : Nat → Option String) (L : List Subscription) :
    ∀ db : DB, (L.map (fun t => t.id)).Nodup →
      ∀ s ∈ L, f s.id = none → ∀ p, findPlanById db s.planId = some p →
      subById (renewLoop f db L).1 s.id = (subById db s.id).map (renewUpdate s) := by
  induction L with
  | nil => intro db _ s hs; cases hs
  | cons a rest ih =>
    intro db hnd s hs hf p hp
    have hnd2 : (∀ x ∈ rest, ¬x.id = a.id) ∧
        (List.map (fun t => t.id) rest).Nodup := by simpa using hnd
    rcases List.mem_cons.mp hs with rfl | hs2
    · show subById (renewLoop f (renewOne f db s).1 rest).1 s.id = _
      have hother : ∀ t ∈ rest, t.id ≠ s.id := fun t ht => hnd2.1 t ht
      rw [renewLoop_subById_other f rest _ _ hother,
          renewOne_subById_self f db s hf hp]
    · have hane : a.id ≠ s.id := fun heq => hnd2.1 s hs2 heq.symm
      show subById (renewLoop f (renewOne f db a).1 rest).1 s.id = _
      rw [ih _ hnd2.2 s hs2 hf p
          (by rw [findPlanById_congr (renewOne_frame f db a).1]; exact hp),
        renewOne_subById_other f db a hane]

lemma renewLoop_subById_failed (f : Nat → Option String) (L : List Subscription) :
    ∀ db : DB, (L.map (fun t => t.id)).Nodup →
      ∀ s ∈ L, ∀ e, f s.id = some e →
      subById (renewLoop f db L).1 s.id = subById db s.id := by
  induction L with
  | nil => intro db _ s hs; cases hs
  | cons a rest ih =>
    intro db hnd s hs e hf
    have hnd2 : (∀ x ∈ rest, ¬x.id = a.id) ∧
        (List.map (fun t => t.id) rest).Nodup := by simpa using hnd
    rcases List.mem_cons.mp hs with rfl | hs2
    · show subById (renewLoop f (renewOne f db s).1 rest).1 s.id = _
      have hother : ∀ t ∈ rest, t.id ≠ s.id := fun t ht => hnd2.1 t ht
      rw [renewLoop_subById_other f rest _ _ hother,
          renewOne_fst_fail f db s e hf]
    · have hane : a.id ≠ s.id := fun heq => hnd2.1 s hs2 heq.symm
      show subById (renewLoop f (renewOne f db a).1 rest).1 s.id = _
      rw [ih _ hnd2.2 s hs2 e hf, renewOne_subById_other f db a hane]

lemma grants_filter_nil (db : DB) (f : Nat → Option String)
    (L : List Subscription) (i : Nat) (h : ∀ t ∈ L, t.id ≠ i) :
    (L.flatMap (fun t => itemGrants db f t)).filter
      (fun en => en.subscriptionId == i && en.entryType == "granted") = [] := by
  induction L with
  | nil => rfl
  | cons a rest ih =>
    rw [List.flatMap_cons, List.filter_append,
        ih (fun t ht => h t (List.mem_cons_of_mem a ht))]
    have hfa : (itemGrants db f a).filter
        (fun en => en.subscriptionId == i && en.entryType == "granted") = [] := by
      unfold itemGrants
      rcases f a.id with _ | e
      · rcases findPlanById db a.planId with _ | p
        · rfl
        · simp [h a (List.mem_cons_self a rest)]
      · rfl
    rw [hfa, List.nil_append]

/-- **C4.** `renewDueSubscriptions` processes exactly the subscriptions with
status `active`, `cancelAtPeriodEnd = false` and `currentPeriodEnd ≤ now` (one
result row per selected subscription, in order); the appended ledger entries
are exactly the per-item grants.  For each selected subscription whose item
transaction succeeds, the stored row becomes `renewUpdate s s`
(`currentPeriodStart := old currentPeriodEnd`, `currentPeriodEnd := old end +
1 month`, 12 for a yearly cycle) and its grant is one `granted` entry for the
plan's daily or monthly quota; for a failing item, the row is unchanged and
no grant is appended — the update and the grant commit atomically per item. -/
theorem renewDueSubscriptions_spec (db : DB) (now : JsDate)
    (itf : Nat → Option String)
    (hnd : (db.subscriptions.map (fun t => t.id)).Nodup) :
    (∀ db1 summary,
      renewDueSubscriptions db now none itf = (db1, .ok summary) →
      summary.results
          = (db.subscriptions.filter (duePred now)).map (fun s => itemResult db itf s) ∧
      db1.creditLedger
          = db.creditLedger ++
            (db.subscriptions.filter (duePred now)).flatMap (fun s => itemGrants db itf s)) ∧
    (∀ s ∈ db.subscriptions, duePred now s = true → itf s.id = none →
      ∀ p, findPlanById db s.planId = some p →
      subById (renewDueSubscriptions db now none itf).1 s.id
          = some (renewUpdate s s) ∧
      itemGrants db itf s
          = [⟨s.userId, s.id,
              if p.isDaily then p.dailyCredits else p.monthlyCredits,
              "granted", "Credits granted for " ++ s.billingCycle ++ " renewal"⟩]) ∧
    (∀ s ∈ db.subscriptions, duePred now s = true → ∀ e, itf s.id = some e →
      subById (renewDueSubscriptions db now none itf).1 s.id = some s ∧
      itemGrants db itf s = []) := by
  have hdueNd : ((db.subscriptions.filter (duePred now)).map (fun t => t.id)).Nodup :=
    List.Nodup.sublist (List.Sublist.map _ (List.filter_sublist _)) hnd
  refine ⟨?_, ?_, ?_⟩
  · intro db1 summary h
    simp only [renewDueSubscriptions, Prod.mk.injEq, Except.ok.injEq] at h
    obtain ⟨hdb1, hsum⟩ := h
    subst hdb1
    subst hsum
    exact ⟨renewLoop_results itf _ db, renewLoop_ledger itf _ db⟩
  · intro s hs hdue hf p hp
    have hmemdue : s ∈ db.subscriptions.filter (duePred now) :=
      List.mem_filter.mpr ⟨hs, hdue⟩
    constructor
    · show subById
        (renewLoop itf db (db.subscriptions.filter (duePred now))).1 s.id = _
      rw [renewLoop_subById_success itf _ db hdueNd s hmemdue hf p hp,
          subById_of_mem hnd hs]
      rfl
    · simp only [itemGrants, hf, hp]
  · intro s hs hdue e hf
    have hmemdue : s ∈ db.subscriptions.filter (duePred now) :=
      List.mem_filter.mpr ⟨hs, hdue⟩
    constructor
    · show subById
        (renewLoop itf db (db.subscriptions.filter (duePred now))).1 s.id = _
      rw [renewLoop_subById_failed itf _ db hdueNd s hmemdue e hf,
          subById_of_mem hnd hs]
    · simp only [itemGrants, hf]

theorem renewDueSubscriptions_spec_witness :
    subById (renewDueSubscriptions c5db c5now none (fun _ => none)).1 1
        = some (renewUpdate c5sub c5sub) ∧
    itemGrants c5db (fun _ => none) c5sub
        = [⟨1, 1, 10, "granted", "Credits granted for monthly renewal"⟩] :=
  (renewDueSubscriptions_spec c5db c5now (fun _ => none) (by decide)).2.1
    c5sub (by decide) (by decide) rfl
    ⟨"m1", "Premium", 0, 0, 0, 10, false, ""⟩ (by decide)

/-- **C6.** A single item's failure never aborts the batch and never makes
`renewDueSubscriptions` throw: with the due query succeeding the workflow
always returns a success value whose results cover every due subscription in
order, each failing item recorded with its subscription id and error message,
and the renewed/failed aggregates are the counts of succeeding and failing
items; it throws exactly when the due query itself fails. -/
theorem renewDue_failure_isolation (db : DB) (now : JsDate)
    (itf : Nat → Option String) :
    (∀ e, renewDueSubscriptions db now (some e) itf
        = (db, .error (.txFailure e))) ∧
    (∃ db1 summary,
      renewDueSubscriptions db now none itf = (db1, .ok summary) ∧
      summary.results
        = (db.subscriptions.filter (duePred now)).map (fun s => itemResult db itf s) ∧
      summary.renewed = (summary.results.filter (fun r => r.success)).length ∧
      summary.failed = (summary.results.filter (fun r => !r.success)).length ∧
      (∀ s ∈ db.subscriptions.filter (duePred now), ∀ e, itf s.id = some e →
        (⟨s.id, false, some e⟩ : RenewalItem) ∈ summary.results)) := by
  constructor
  · intro e
    rfl
  · have heq : renewDueSubscriptions db now none itf
        = ((renewLoop itf db (db.subscriptions.filter (duePred now))).1,
           .ok ⟨((renewLoop itf db (db.subscriptions.filter (duePred now))).2.filter
                  (fun r => r.success)).length,
                ((renewLoop itf db (db.subscriptions.filter (duePred now))).2.filter
                  (fun r => !r.success)).length,
                (renewLoop itf db (db.subscriptions.filter (duePred now))).2⟩) := rfl
    refine ⟨(renewLoop itf db (db.subscriptions.filter (duePred now))).1,
      ⟨((renewLoop itf db (db.subscriptions.filter (duePred now))).2.filter
          (fun r => r.success)).length,
       ((renewLoop itf db (db.subscriptions.filter (duePred now))).2.filter
          (fun r => !r.success)).length,
       (renewLoop itf db (db.subscriptions.filter (duePred now))).2⟩,
      heq, renewLoop_results itf _ db, rfl, rfl, ?_⟩
    intro s hs e hf
    show (⟨s.id, false, some e⟩ : RenewalItem)
        ∈ (renewLoop itf db (db.subscriptions.filter (duePred now))).2
    rw [renewLoop_results itf _ db]
    have hitem : itemResult db itf s = ⟨s.id, false, some e⟩ := by
      simp [itemResult, hf]
    exact hitem ▸ List.mem_map_of_mem _ hs

theorem renewDue_failure_isolation_witness :
    renewDueSubscriptions c5db c5now (some "store offline") (fun _ => none)
      = (c5db, .error (.txFailure "store offline")) ∧
    ∃ db1 summary,
      renewDueSubscriptions c5db c5now none (fun _ => some "constraint violation")
        = (db1, .ok summary) ∧
      (⟨1, false, some "constraint violation"⟩ : RenewalItem) ∈ summary.results :=
  ⟨(renewDue_failure_isolation c5db c5now (fun _ => none)).1 "store offline",
   by
    obtain ⟨db1, summary, heq, hres, h1, h2, hmem⟩ :=
      (renewDue_failure_isolation c5db c5now (fun _ => some "constraint violation")).2
    exact ⟨db1, summary, heq, hmem c5sub (by decide) "constraint violation" rfl⟩⟩

/-- **C5 (amended).** Within one run each due subscription is processed once;
after a successful renewal the row's `currentPeriodEnd` becomes the old end
plus one billing-cycle unit.  Provided that advanced end lies strictly after
`now` (the subscription was less than one billing period overdue), it is no
longer due, and an immediately repeated run leaves the row untouched and
appends no further grant for it.  (Without that proviso the claim fails: a
subscription more than one period overdue is still due after the first run
and is renewed again by the second — see the counterexample.) -/
theorem renewDue_second_run (db : DB) (now : JsDate) (s : Subscription)
    (hnd : (db.subscriptions.map (fun t => t.id)).Nodup)
    (hmem : s ∈ db.subscriptions) (hdue : duePred now s = true)
    (p : Plan) (hp : findPlanById db s.planId = some p)
    (hfresh : dateLe (addMonths s.currentPeriodEnd
        (if s.billingCycle == "yearly" then 12 else 1)) now = false) :
    subById (renewDueSubscriptions db now none (fun _ => none)).1 s.id
        = some (renewUpdate s s) ∧
    duePred now (renewUpdate s s) = false ∧
    subById (renewDueSubscriptions
        (renewDueSubscriptions db now none (fun _ => none)).1 now none
        (fun _ => none)).1 s.id = some (renewUpdate s s) ∧
    grantCount (renewDueSubscriptions
        (renewDueSubscriptions db now none (fun _ => none)).1 now none
        (fun _ => none)).1 s.id
      = grantCount (renewDueSubscriptions db now none (fun _ => none)).1 s.id := by
  have hdueNd : ((db.subscriptions.filter (duePred now)).map (fun t => t.id)).Nodup :=
    List.Nodup.sublist (List.Sublist.map _ (List.filter_sublist _)) hnd
  have hmemdue : s ∈ db.subscriptions.filter (duePred now) :=
    List.mem_filter.mpr ⟨hmem, hdue⟩
  have h1 : subById (renewDueSubscriptions db now none (fun _ => none)).1 s.id
      = some (renewUpdate s s) := by
    show subById
      (renewLoop (fun _ => none) db (db.subscriptions.filter (duePred now))).1 s.id = _
    rw [renewLoop_subById_success (fun _ => none) _ db hdueNd s hmemdue rfl p hp,
        subById_of_mem hnd hmem]
    rfl
  have h2 : duePred now (renewUpdate s s) = false := by
    unfold duePred
    rw [show (renewUpdate s s).currentPeriodEnd
          = addMonths s.currentPeriodEnd
              (if s.billingCycle == "yearly" then 12 else 1) from rfl]
    rw [hfresh]
    simp
  have hnd1 : (((renewDueSubscriptions db now none (fun _ => none)).1).subscriptions.map
      (fun t => t.id)).Nodup := by
    show ((renewLoop (fun _ => none) db
        (db.subscriptions.filter (duePred now))).1.subscriptions.map
        (fun t => t.id)).Nodup
    rw [renewLoop_ids]
    exact hnd
  have hupd_mem : renewUpdate s s
      ∈ ((renewDueSubscriptions db now none (fun _ => none)).1).subscriptions :=
    List.mem_of_find?_eq_some h1
  have hother2 : ∀ t ∈ ((renewDueSubscriptions db now none
      (fun _ => none)).1).subscriptions.filter (duePred now), t.id ≠ s.id := by
    intro t ht heq
    have htmem := (List.mem_filter.mp ht).1
    have htdue := (List.mem_filter.mp ht).2
    have hteq : t = renewUpdate s s :=
      List.inj_on_of_nodup_map hnd1 htmem hupd_mem (by rw [heq]; rfl)
    rw [hteq, h2] at htdue
    cases htdue
  have h3 : subById (renewDueSubscriptions
      (renewDueSubscriptions db now none (fun _ => none)).1 now none
      (fun _ => none)).1 s.id = some (renewUpdate s s) := by
    show subById (renewLoop (fun _ => none)
      (renewDueSubscriptions db now none (fun _ => none)).1
      (((renewDueSubscriptions db now none (fun _ => none)).1).subscriptions.filter
        (duePred now))).1 s.id = _
    rw [renewLoop_subById_other _ _ _ _ hother2]
    exact h1
  refine ⟨h1, h2, h3, ?_⟩
  unfold grantCount
  show ((renewLoop (fun _ => none)
      (renewDueSubscriptions db now none (fun _ => none)).1
      (((renewDueSubscriptions db now none (fun _ => none)).1).subscriptions.filter
        (duePred now))).1.creditLedger.filter _).length = _
  rw [renewLoop_ledger, List.filter_append,
      grants_filter_nil _ _ _ _ (fun t ht => hother2 t ht), List.append_nil]

theorem renewDue_second_run_witness :
    subById (renewDueSubscriptions
        (renewDueSubscriptions c5freshDb c5now none (fun _ => none)).1 c5now none
        (fun _ => none)).1 1 = some (renewUpdate c5freshSub c5freshSub) :=
  (renewDue_second_run c5freshDb c5now c5freshSub (by decide) (by decide) (by decide)
    ⟨"m1", "Premium", 0, 0, 0, 10, false, ""⟩ (by decide) (by decide)).2.2.1

/-- Counterexample to C5 as stated: a subscription four months overdue
(`currentPeriodEnd` Oct 1 2025, `now` Jan 1 2026) is renewed by the first run
to Nov 1 2025 — still not in the future — so an immediate second run renews it
again: two grants and two period advances, not at most one per due moment. -/
theorem renewDue_second_run_counterexample :
    duePred c5now c5sub = true ∧
    grantCount c5run1 1 = 1 ∧
    grantCount c5run2 1 = 2 ∧
    (subById c5run1 1).map (fun t => t.currentPeriodEnd) = some ⟨2025, 10, 1, 0⟩ ∧
    (subById c5run2 1).map (fun t => t.currentPeriodEnd) = some ⟨2025, 11, 1, 0⟩ := by
  refine ⟨by decide, by decide, by decide, by decide, by decide⟩

end BotBackend
